import Mathlib

/-!
Shallow embedding of the pong simulation core from
`src/interactive_marker_tutorials/src/pong.cpp`.

Floats are modelled as exact real numbers.  The marker publishing calls
(`updateBall`, `updateScore`, `publishUpdate`, `setPose`) have no effect on the
simulation state and are omitted; everything that reads or writes the game
state (`spinOnce`, `reflect`, `normalizeVel`, `reset`,
`processPaddleFeedback`) is transcribed literally.  The `rand() % 2` call in
`reset` is modelled by a `Bool` parameter threaded through the step.
-/

namespace Pong

open Classical

noncomputable section

/-- `static const float FIELD_WIDTH = 12.0;` -/
def FIELD_WIDTH : ℝ := 12

/-- `static const float FIELD_HEIGHT = 8.0;` -/
def FIELD_HEIGHT : ℝ := 8

/-- `static const float BORDER_SIZE = 0.5;` -/
def BORDER_SIZE : ℝ := 0.5

/-- `static const float PADDLE_SIZE = 2.0;` -/
def PADDLE_SIZE : ℝ := 2

/-- `static const float UPDATE_RATE = 1.0 / 30.0;` -/
def UPDATE_RATE : ℝ := 1 / 30

/-- The mutable state of `PongGame`: the two `PlayerContext`s
(`pos`, `active`, `score` for each side) and the ball fields. -/
structure GameState where
  paddle0 : ℝ
  paddle1 : ℝ
  active0 : Bool
  active1 : Bool
  score0 : ℤ
  score1 : ℤ
  last_ball_pos_x : ℝ
  last_ball_pos_y : ℝ
  ball_pos_x : ℝ
  ball_pos_y : ℝ
  ball_dir_x : ℝ
  ball_dir_y : ℝ
  speed : ℝ

/-- `player_contexts_[player].pos` for `player` in `{0, 1}`. -/
def paddlePos (st : GameState) (player : ℕ) : ℝ :=
  if player = 1 then st.paddle1 else st.paddle0

/-- `PongGame::reflect`.  The C++ function returns a `bool` and writes `t`
through a reference; we return `some t` when it returns `true` and `none`
when it returns `false` (in which case the caller's `t` is left unchanged,
modelled at each call site with `Option.getD`). -/
def reflect (pos last_pos limit : ℝ) : Option ℝ :=
  if limit < pos then some ((pos - limit) / (pos - last_pos))
  else if limit < -pos then some ((-pos - limit) / (last_pos - pos))
  else none

/-- `PongGame::normalizeVel` on direction components `(x, y)`:
divide both by `l = sqrt(x*x + y*y)`. -/
def normalizeVel (x y : ℝ) : ℝ × ℝ :=
  (x / Real.sqrt (x * x + y * y), y / Real.sqrt (x * x + y * y))

/-- Lines 119-125 of `pong.cpp`: if `fabs(ball_dir_y_) > 0.707106781`, set
both components to `±1` according to their signs and renormalize. -/
def clampDir (d : ℝ × ℝ) : ℝ × ℝ :=
  if 0.707106781 < |d.2| then
    normalizeVel (if 0 < d.1 then 1 else -1) (if 0 < d.2 then 1 else -1)
  else d

/-- Lines 76-80 of `spinOnce`: advance the ball by `speed * direction`. -/
def advance (st : GameState) : GameState :=
  { st with
    ball_pos_x := st.ball_pos_x + st.speed * st.ball_dir_x
    ball_pos_y := st.ball_pos_y + st.speed * st.ball_dir_y }

/-- Lines 82-95 of `spinOnce`: bounce off top / bottom.  Returns the value
of the local `t` after the block (initialized to `0`) together with the
updated state.  On a bounce, the code backs the position up by `t` times the
old displacement, inverts `ball_dir_y_`, recomputes the displacement and
re-applies `t` times the new displacement. -/
def wallStep (st : GameState) : ℝ × GameState :=
  match reflect st.ball_pos_y st.last_ball_pos_y (FIELD_HEIGHT * 0.5) with
  | some t =>
      (t, { st with
            ball_pos_x := st.ball_pos_x - t * (st.speed * st.ball_dir_x)
                            + t * (st.speed * st.ball_dir_x)
            ball_pos_y := st.ball_pos_y - t * (st.speed * st.ball_dir_y)
                            + t * (st.speed * (-st.ball_dir_y))
            ball_dir_y := -st.ball_dir_y })
  | none => (0, st)

/-- Line 97 of `spinOnce`: `int player = ball_pos_x_ > 0 ? 1 : 0;`. -/
def playerOf (st : GameState) : ℕ :=
  if 0 < st.ball_pos_x then 1 else 0

/-- Lines 99-132 of `spinOnce`: reflect on paddles.  `t0` is the value the
local `t` has on entry (the ignored return value of `reflect` leaves `t`
unchanged when no strict crossing is detected). -/
def paddleStep (player : ℕ) (t0 : ℝ) (st : GameState) : ℝ × GameState :=
  if |st.last_ball_pos_x| < FIELD_WIDTH * 0.5 ∧
     FIELD_WIDTH * 0.5 ≤ |st.ball_pos_x| then
    if paddlePos st player - PADDLE_SIZE * 0.5 - 0.5 * BORDER_SIZE < st.ball_pos_y ∧
       st.ball_pos_y < paddlePos st player + PADDLE_SIZE * 0.5 + 0.5 * BORDER_SIZE then
      let t := (reflect st.ball_pos_x st.last_ball_pos_x (FIELD_WIDTH * 0.5)).getD t0
      let bx := st.ball_pos_x - t * (st.speed * st.ball_dir_x)
      let bY := st.ball_pos_y - t * (st.speed * st.ball_dir_y)
      let offset := (bY - paddlePos st player) / PADDLE_SIZE
      let d := clampDir (normalizeVel (-st.ball_dir_x) (st.ball_dir_y + offset * 2))
      (t, { st with
            ball_pos_x := bx + t * (st.speed * d.1)
            ball_pos_y := bY + t * (st.speed * d.2)
            ball_dir_x := d.1
            ball_dir_y := d.2 })
    else (t0, st)
  else (t0, st)

/-- `PongGame::reset`: re-serve at the field center with base speed; the
x-direction keeps the sign it had (`ball_dir_x_ > 0 ? 1 : -1`), the
y-direction sign is random (`rand() % 2`, modelled by `b`). -/
def reset (b : Bool) (st : GameState) : GameState :=
  let d := normalizeVel (if 0 < st.ball_dir_x then 1 else -1) (if b then 1 else -1)
  { st with
    speed := 5 * UPDATE_RATE
    ball_pos_x := 0
    ball_pos_y := 0
    ball_dir_x := d.1
    ball_dir_y := d.2 }

/-- Lines 134-148 of `spinOnce`: the ball hits the left/right border of the
playing field; back up, increment the score of side `1 - player`, reset. -/
def scoreStep (b : Bool) (player : ℕ) (t0 : ℝ) (st : GameState) : GameState :=
  if FIELD_WIDTH * 0.5 + 1.5 * BORDER_SIZE ≤ |st.ball_pos_x| then
    let t := (reflect st.ball_pos_x st.last_ball_pos_x
                (FIELD_WIDTH * 0.5 + 1.5 * BORDER_SIZE)).getD t0
    let st1 := { st with
                 ball_pos_x := st.ball_pos_x - t * (st.speed * st.ball_dir_x)
                 ball_pos_y := st.ball_pos_y - t * (st.speed * st.ball_dir_y) }
    let st2 := if player = 1 then { st1 with score0 := st1.score0 + 1 }
               else { st1 with score1 := st1.score1 + 1 }
    reset b st2
  else st

/-- Lines 154-157 of `spinOnce`: record `position` into `previous_position`
and apply the per-tick rally speed-up. -/
def finalize (st : GameState) : GameState :=
  { st with
    last_ball_pos_x := st.ball_pos_x
    last_ball_pos_y := st.ball_pos_y
    speed := st.speed + 0.0002 }

/-- The body of the `if (active && active)` block of `spinOnce`. -/
def tick (b : Bool) (st : GameState) : GameState :=
  let st1 := advance st
  let w := wallStep st1
  let player := playerOf w.2
  let p := paddleStep player w.1 w.2
  finalize (scoreStep b player p.1 p.2)

/-- `PongGame::spinOnce` (the state transition part; marker publishing is
omitted).  Runs the physics tick only when both players are active. -/
def spinOnce (b : Bool) (st : GameState) : GameState :=
  if st.active0 = true ∧ st.active1 = true then tick b st else st

/-- Interactive-marker feedback event types relevant to
`processPaddleFeedback`. -/
inductive FeedbackEvent
  | mouseDown
  | mouseUp
  | poseUpdate

/-- Helper for `player_contexts_[player].active = a`. -/
def setActive (player : ℕ) (a : Bool) (st : GameState) : GameState :=
  if player = 1 then { st with active1 := a } else { st with active0 := a }

/-- `PongGame::processPaddleFeedback`: ignore out-of-range players, clamp
the paddle's y position into `±(FIELD_HEIGHT - PADDLE_SIZE) * 0.5`, store
it, and toggle the active flag on mouse-down / mouse-up events. -/
def processPaddleFeedback (player : ℕ) (y : ℝ) (ev : FeedbackEvent)
    (st : GameState) : GameState :=
  if 1 < player then st
  else
    let y1 := if (FIELD_HEIGHT - PADDLE_SIZE) * 0.5 < y
              then (FIELD_HEIGHT - PADDLE_SIZE) * 0.5 else y
    let y2 := if y1 < (FIELD_HEIGHT - PADDLE_SIZE) * (-0.5)
              then (FIELD_HEIGHT - PADDLE_SIZE) * (-0.5) else y1
    let st1 := if player = 1 then { st with paddle1 := y2 }
               else { st with paddle0 := y2 }
    match ev with
    | FeedbackEvent.mouseDown => setActive player false st1
    | FeedbackEvent.mouseUp => setActive player true st1
    | FeedbackEvent.poseUpdate => st1

/-- The `PongGame` constructor: both player contexts start as
`pos = 0, active = false, score = 0`, `last_ball_pos_* = 0`, and the ball
state is produced by `reset()`.  `ball_dir_x_` is read by `reset` before
ever being written, so its indeterminate initial value is a parameter. -/
def initState (d0 : ℝ) (b : Bool) : GameState :=
  reset b
    { paddle0 := 0, paddle1 := 0, active0 := false, active1 := false
      score0 := 0, score1 := 0
      last_ball_pos_x := 0, last_ball_pos_y := 0
      ball_pos_x := 0, ball_pos_y := 0
      ball_dir_x := d0, ball_dir_y := 0, speed := 0 }

/-- States reachable through the public operations of the game. -/
inductive Reachable : GameState → Prop
  | init (d0 : ℝ) (b : Bool) : Reachable (initState d0 b)
  | step (b : Bool) {st : GameState} : Reachable st → Reachable (spinOnce b st)
  | feedback (p : ℕ) (y : ℝ) (ev : FeedbackEvent) {st : GameState} :
      Reachable st → Reachable (processPaddleFeedback p y ev st)

/-- The paddle-reflection guard of lines 100-105, as evaluated on the
post-wall-bounce state (where the code evaluates it). -/
def paddleCond (st : GameState) : Prop :=
  (|st.last_ball_pos_x| < FIELD_WIDTH * 0.5 ∧
   FIELD_WIDTH * 0.5 ≤ |st.ball_pos_x|) ∧
  (paddlePos st (playerOf st) - PADDLE_SIZE * 0.5 - 0.5 * BORDER_SIZE < st.ball_pos_y ∧
   st.ball_pos_y < paddlePos st (playerOf st) + PADDLE_SIZE * 0.5 + 0.5 * BORDER_SIZE)

/-- The ball's x coordinate at the scoring check of line 135: after the
advance, the wall bounce and the paddle reflection of the current tick. -/
def postBounceX (st : GameState) : ℝ :=
  ((paddleStep (playerOf (wallStep (advance st)).2) (wallStep (advance st)).1
      (wallStep (advance st)).2).2).ball_pos_x

/-! ### Basic facts about the embedded operations -/

lemma half_height : FIELD_HEIGHT * 0.5 = 4 := by norm_num [FIELD_HEIGHT]

lemma half_width : FIELD_WIDTH * 0.5 = 6 := by norm_num [FIELD_WIDTH]

lemma outer_limit : FIELD_WIDTH * 0.5 + 1.5 * BORDER_SIZE = 27 / 4 := by
  norm_num [FIELD_WIDTH, BORDER_SIZE]

lemma paddle_halfwin : PADDLE_SIZE * 0.5 + 0.5 * BORDER_SIZE = 5 / 4 := by
  norm_num [PADDLE_SIZE, BORDER_SIZE]

lemma sq_add_pos_left {x y : ℝ} (hx : x ≠ 0) : 0 < x * x + y * y := by
  nlinarith [mul_self_pos.mpr hx, mul_self_nonneg y]

lemma normalizeVel_unit {x y : ℝ} (h : 0 < x * x + y * y) :
    (normalizeVel x y).1 ^ 2 + (normalizeVel x y).2 ^ 2 = 1 := by
  have hl : 0 < Real.sqrt (x * x + y * y) := Real.sqrt_pos.mpr h
  have hsq : Real.sqrt (x * x + y * y) ^ 2 = x * x + y * y := Real.sq_sqrt h.le
  simp only [normalizeVel]
  field_simp
  nlinarith [hsq]

lemma normalizeVel_fst_pos {x y : ℝ} (hx : 0 < x) : 0 < (normalizeVel x y).1 :=
  div_pos hx (Real.sqrt_pos.mpr (sq_add_pos_left hx.ne'))

lemma normalizeVel_fst_neg {x y : ℝ} (hx : x < 0) : (normalizeVel x y).1 < 0 :=
  div_neg_of_neg_of_pos hx (Real.sqrt_pos.mpr (sq_add_pos_left hx.ne))

lemma sqrt_two_pos : (0 : ℝ) < Real.sqrt 2 := Real.sqrt_pos.mpr (by norm_num)

lemma one_div_sqrt_two : (1 : ℝ) / Real.sqrt 2 = Real.sqrt 2 / 2 := by
  rw [div_eq_div_iff sqrt_two_pos.ne' (by norm_num : (2:ℝ) ≠ 0)]
  rw [Real.mul_self_sqrt (by norm_num : (0:ℝ) ≤ 2)]
  norm_num

lemma clamp_threshold_le : (0.707106781 : ℝ) ≤ Real.sqrt 2 / 2 := by
  rw [le_div_iff₀ (by norm_num : (0:ℝ) < 2)]
  rw [show (0.707106781 : ℝ) * 2 = 1.414213562 by norm_num]
  rw [Real.le_sqrt (by norm_num) (by norm_num)]
  norm_num

lemma clampDir_unit {d : ℝ × ℝ} (h : d.1 ^ 2 + d.2 ^ 2 = 1) :
    (clampDir d).1 ^ 2 + (clampDir d).2 ^ 2 = 1 := by
  unfold clampDir
  by_cases h1 : (0.707106781 : ℝ) < |d.2|
  · rw [if_pos h1]
    apply normalizeVel_unit
    split_ifs <;> norm_num
  · rw [if_neg h1]; exact h

lemma clampDir_fst_pos {d : ℝ × ℝ} (h : 0 < d.1) : 0 < (clampDir d).1 := by
  unfold clampDir
  by_cases h1 : (0.707106781 : ℝ) < |d.2|
  · rw [if_pos h1, if_pos h]
    exact normalizeVel_fst_pos one_pos
  · rw [if_neg h1]; exact h

lemma clampDir_fst_neg {d : ℝ × ℝ} (h : d.1 < 0) : (clampDir d).1 < 0 := by
  unfold clampDir
  by_cases h1 : (0.707106781 : ℝ) < |d.2|
  · rw [if_pos h1, if_neg (not_lt.mpr h.le)]
    exact normalizeVel_fst_neg (by norm_num)
  · rw [if_neg h1]; exact h

lemma normalizeVel_pm_one_snd_abs {a b : ℝ} (ha : a = 1 ∨ a = -1)
    (hb : b = 1 ∨ b = -1) : |(normalizeVel a b).2| = Real.sqrt 2 / 2 := by
  have h2 : a * a + b * b = 2 := by
    obtain rfl | rfl := ha <;> obtain rfl | rfl := hb <;> norm_num
  simp only [normalizeVel, h2]
  rw [abs_div, abs_of_pos sqrt_two_pos]
  obtain rfl | rfl := hb
  · rw [abs_one]; exact one_div_sqrt_two
  · rw [abs_neg, abs_one]; exact one_div_sqrt_two

lemma normalizeVel_pm_one_fst_abs {a b : ℝ} (ha : a = 1 ∨ a = -1)
    (hb : b = 1 ∨ b = -1) : |(normalizeVel a b).1| = Real.sqrt 2 / 2 := by
  have h2 : a * a + b * b = 2 := by
    obtain rfl | rfl := ha <;> obtain rfl | rfl := hb <;> norm_num
  simp only [normalizeVel, h2]
  rw [abs_div, abs_of_pos sqrt_two_pos]
  obtain rfl | rfl := ha
  · rw [abs_one]; exact one_div_sqrt_two
  · rw [abs_neg, abs_one]; exact one_div_sqrt_two

lemma clampDir_snd_le (d : ℝ × ℝ) : |(clampDir d).2| ≤ Real.sqrt 2 / 2 := by
  unfold clampDir
  by_cases h1 : (0.707106781 : ℝ) < |d.2|
  · rw [if_pos h1]
    rw [normalizeVel_pm_one_snd_abs (by split_ifs <;> simp) (by split_ifs <;> simp)]
  · rw [if_neg h1]
    exact le_trans (not_lt.mp h1) clamp_threshold_le

lemma reflect_none {pos last_pos limit : ℝ} (h1 : pos ≤ limit) (h2 : -pos ≤ limit) :
    reflect pos last_pos limit = none := by
  unfold reflect
  rw [if_neg (not_lt.mpr h1), if_neg (not_lt.mpr h2)]

lemma reflect_high {pos last_pos limit : ℝ} (h : limit < pos) :
    reflect pos last_pos limit = some ((pos - limit) / (pos - last_pos)) := by
  unfold reflect; rw [if_pos h]

lemma reflect_low {pos last_pos limit : ℝ} (h1 : pos ≤ limit) (h : limit < -pos) :
    reflect pos last_pos limit = some ((-pos - limit) / (last_pos - pos)) := by
  unfold reflect; rw [if_neg (not_lt.mpr h1), if_pos h]

lemma wallStep_none {st : GameState} (h1 : st.ball_pos_y ≤ FIELD_HEIGHT * 0.5)
    (h2 : -st.ball_pos_y ≤ FIELD_HEIGHT * 0.5) : wallStep st = (0, st) := by
  unfold wallStep
  rw [reflect_none h1 h2]

lemma wallStep_some {st : GameState} {t : ℝ}
    (h : reflect st.ball_pos_y st.last_ball_pos_y (FIELD_HEIGHT * 0.5) = some t) :
    wallStep st =
      (t, { st with
            ball_pos_x := st.ball_pos_x - t * (st.speed * st.ball_dir_x)
                            + t * (st.speed * st.ball_dir_x)
            ball_pos_y := st.ball_pos_y - t * (st.speed * st.ball_dir_y)
                            + t * (st.speed * (-st.ball_dir_y))
            ball_dir_y := -st.ball_dir_y }) := by
  unfold wallStep
  rw [h]

lemma paddleStep_not_crossing {player : ℕ} {t0 : ℝ} {st : GameState}
    (h : ¬(|st.last_ball_pos_x| < FIELD_WIDTH * 0.5 ∧
           FIELD_WIDTH * 0.5 ≤ |st.ball_pos_x|)) :
    paddleStep player t0 st = (t0, st) := by
  unfold paddleStep; rw [if_neg h]

lemma paddleStep_not_window {player : ℕ} {t0 : ℝ} {st : GameState}
    (h : ¬(paddlePos st player - PADDLE_SIZE * 0.5 - 0.5 * BORDER_SIZE < st.ball_pos_y ∧
           st.ball_pos_y < paddlePos st player + PADDLE_SIZE * 0.5 + 0.5 * BORDER_SIZE)) :
    paddleStep player t0 st = (t0, st) := by
  unfold paddleStep
  by_cases hc : |st.last_ball_pos_x| < FIELD_WIDTH * 0.5 ∧
      FIELD_WIDTH * 0.5 ≤ |st.ball_pos_x|
  · rw [if_pos hc, if_neg h]
  · rw [if_neg hc]

lemma paddleStep_fired {player : ℕ} {t0 : ℝ} {st : GameState}
    (h1 : |st.last_ball_pos_x| < FIELD_WIDTH * 0.5 ∧
          FIELD_WIDTH * 0.5 ≤ |st.ball_pos_x|)
    (h2 : paddlePos st player - PADDLE_SIZE * 0.5 - 0.5 * BORDER_SIZE < st.ball_pos_y ∧
          st.ball_pos_y < paddlePos st player + PADDLE_SIZE * 0.5 + 0.5 * BORDER_SIZE) :
    paddleStep player t0 st =
      (let t := (reflect st.ball_pos_x st.last_ball_pos_x (FIELD_WIDTH * 0.5)).getD t0
       let bx := st.ball_pos_x - t * (st.speed * st.ball_dir_x)
       let bY := st.ball_pos_y - t * (st.speed * st.ball_dir_y)
       let offset := (bY - paddlePos st player) / PADDLE_SIZE
       let d := clampDir (normalizeVel (-st.ball_dir_x) (st.ball_dir_y + offset * 2))
       (t, { st with
             ball_pos_x := bx + t * (st.speed * d.1)
             ball_pos_y := bY + t * (st.speed * d.2)
             ball_dir_x := d.1
             ball_dir_y := d.2 })) := by
  unfold paddleStep
  rw [if_pos h1, if_pos h2]

lemma scoreStep_none {b : Bool} {player : ℕ} {t0 : ℝ} {st : GameState}
    (h : |st.ball_pos_x| < FIELD_WIDTH * 0.5 + 1.5 * BORDER_SIZE) :
    scoreStep b player t0 st = st := by
  unfold scoreStep; rw [if_neg (not_le.mpr h)]

lemma scoreStep_fired {b : Bool} {player : ℕ} {t0 : ℝ} {st : GameState}
    (h : FIELD_WIDTH * 0.5 + 1.5 * BORDER_SIZE ≤ |st.ball_pos_x|) :
    scoreStep b player t0 st =
      (let t := (reflect st.ball_pos_x st.last_ball_pos_x
                  (FIELD_WIDTH * 0.5 + 1.5 * BORDER_SIZE)).getD t0
       let st1 := { st with
                    ball_pos_x := st.ball_pos_x - t * (st.speed * st.ball_dir_x)
                    ball_pos_y := st.ball_pos_y - t * (st.speed * st.ball_dir_y) }
       let st2 := if player = 1 then { st1 with score0 := st1.score0 + 1 }
                  else { st1 with score1 := st1.score1 + 1 }
       reset b st2) := by
  unfold scoreStep
  rw [if_pos h]

lemma spinOnce_inactive (b : Bool) (st : GameState)
    (h : ¬(st.active0 = true ∧ st.active1 = true)) : spinOnce b st = st := by
  unfold spinOnce; rw [if_neg h]

lemma spinOnce_active (b : Bool) (st : GameState)
    (h0 : st.active0 = true) (h1 : st.active1 = true) : spinOnce b st = tick b st := by
  unfold spinOnce; rw [if_pos ⟨h0, h1⟩]

lemma tick_eq (b : Bool) (st : GameState) :
    tick b st =
      finalize (scoreStep b (playerOf (wallStep (advance st)).2)
        (paddleStep (playerOf (wallStep (advance st)).2) (wallStep (advance st)).1
          (wallStep (advance st)).2).1
        (paddleStep (playerOf (wallStep (advance st)).2) (wallStep (advance st)).1
          (wallStep (advance st)).2).2) := rfl

lemma reset_dir_eq (b : Bool) (st : GameState) :
    (reset b st).ball_dir_x
        = (normalizeVel (if 0 < st.ball_dir_x then 1 else -1) (if b then 1 else -1)).1 ∧
    (reset b st).ball_dir_y
        = (normalizeVel (if 0 < st.ball_dir_x then 1 else -1) (if b then 1 else -1)).2 :=
  ⟨rfl, rfl⟩

lemma reset_dir_unit (b : Bool) (st : GameState) :
    (reset b st).ball_dir_x ^ 2 + (reset b st).ball_dir_y ^ 2 = 1 := by
  rw [(reset_dir_eq b st).1, (reset_dir_eq b st).2]
  apply normalizeVel_unit
  split_ifs <;> norm_num

lemma reset_dirx_pos {st : GameState} (b : Bool) (h : 0 < st.ball_dir_x) :
    0 < (reset b st).ball_dir_x := by
  rw [(reset_dir_eq b st).1, if_pos h]
  exact normalizeVel_fst_pos one_pos

lemma reset_dirx_neg {st : GameState} (b : Bool) (h : st.ball_dir_x < 0) :
    (reset b st).ball_dir_x < 0 := by
  rw [(reset_dir_eq b st).1, if_neg (not_lt.mpr h.le)]
  exact normalizeVel_fst_neg (by norm_num)

lemma reset_ball_pos (b : Bool) (st : GameState) :
    (reset b st).ball_pos_x = 0 ∧ (reset b st).ball_pos_y = 0 := ⟨rfl, rfl⟩

lemma reset_speed (b : Bool) (st : GameState) :
    (reset b st).speed = 5 * UPDATE_RATE := rfl

lemma reset_scores (b : Bool) (st : GameState) :
    (reset b st).score0 = st.score0 ∧ (reset b st).score1 = st.score1 := ⟨rfl, rfl⟩

lemma finalize_fields (st : GameState) :
    (finalize st).ball_pos_x = st.ball_pos_x ∧
    (finalize st).ball_pos_y = st.ball_pos_y ∧
    (finalize st).ball_dir_x = st.ball_dir_x ∧
    (finalize st).ball_dir_y = st.ball_dir_y ∧
    (finalize st).last_ball_pos_x = st.ball_pos_x ∧
    (finalize st).last_ball_pos_y = st.ball_pos_y ∧
    (finalize st).speed = st.speed + 0.0002 ∧
    (finalize st).score0 = st.score0 ∧ (finalize st).score1 = st.score1 :=
  ⟨rfl, rfl, rfl, rfl, rfl, rfl, rfl, rfl, rfl⟩

/-! ### Claim C4 -/

/-- Claim C4 concerns the zero-displacement guard in `reflect`.  The code has
no such guard: with `pos = last_pos = 5` and `limit = 4` the function reports
that the limit was surpassed (returns `true`) and computes
`t = (pos - limit) / (pos - last_pos)` with a zero denominator — `+inf` in
C++ float arithmetic, `0` under the real-division-by-zero convention of this
embedding.  This evaluates the code at the failing input. -/
theorem reflect_zero_displacement_reports_crossing :
    (reflect 5 5 4).isSome = true ∧ reflect 5 5 4 = some ((5 - 4) / (5 - 5)) := by
  rw [reflect_high (by norm_num : (4:ℝ) < 5)]
  exact ⟨rfl, rfl⟩

/-! ### Claim C1 -/

/-- Claim C1 (amended): for a tick whose y-coordinate crosses the top or
bottom wall at `±FIELD_HEIGHT/2`, with `t = (pos - limit)/(pos - last_pos)`
for the exceeded side, the back-up point `pos - t·d` lies exactly on the
wall, and the post-reflection position equals that crossing point plus the
remaining `t` fraction (the fraction of the displacement beyond the wall,
not `1 - t`) of the displacement applied along the direction with its
y-component inverted. -/
theorem wall_reflection_overshoot (st : GameState)
    (hy : st.ball_pos_y = st.last_ball_pos_y)
    (hly : |st.last_ball_pos_y| ≤ FIELD_HEIGHT * 0.5) :
    (FIELD_HEIGHT * 0.5 < (advance st).ball_pos_y →
      ∃ t, t = ((advance st).ball_pos_y - FIELD_HEIGHT * 0.5) /
               ((advance st).ball_pos_y - (advance st).last_ball_pos_y) ∧
        (advance st).ball_pos_y - t * (st.speed * st.ball_dir_y)
            = FIELD_HEIGHT * 0.5 ∧
        (wallStep (advance st)).2.ball_pos_x
            = ((advance st).ball_pos_x - t * (st.speed * st.ball_dir_x))
              + t * (st.speed * st.ball_dir_x) ∧
        (wallStep (advance st)).2.ball_pos_y
            = FIELD_HEIGHT * 0.5 + t * (st.speed * (-st.ball_dir_y)) ∧
        (wallStep (advance st)).2.ball_dir_y = -st.ball_dir_y) ∧
    ((advance st).ball_pos_y < -(FIELD_HEIGHT * 0.5) →
      ∃ t, t = (-(advance st).ball_pos_y - FIELD_HEIGHT * 0.5) /
               ((advance st).last_ball_pos_y - (advance st).ball_pos_y) ∧
        (advance st).ball_pos_y - t * (st.speed * st.ball_dir_y)
            = -(FIELD_HEIGHT * 0.5) ∧
        (wallStep (advance st)).2.ball_pos_x
            = ((advance st).ball_pos_x - t * (st.speed * st.ball_dir_x))
              + t * (st.speed * st.ball_dir_x) ∧
        (wallStep (advance st)).2.ball_pos_y
            = -(FIELD_HEIGHT * 0.5) + t * (st.speed * (-st.ball_dir_y)) ∧
        (wallStep (advance st)).2.ball_dir_y = -st.ball_dir_y) := by
  have hh : FIELD_HEIGHT * 0.5 = 4 := half_height
  have hlast : (advance st).last_ball_pos_y = st.last_ball_pos_y := rfl
  have hden : (advance st).ball_pos_y - (advance st).last_ball_pos_y
      = st.speed * st.ball_dir_y := by
    simp only [advance]
    rw [hy]; ring
  have hly4 : st.last_ball_pos_y ≤ 4 := by
    rw [hh] at hly; exact (abs_le.mp hly).2
  have hly4' : -4 ≤ st.last_ball_pos_y := by
    rw [hh] at hly; exact (abs_le.mp hly).1
  constructor
  · intro htop
    have hdy : 0 < st.speed * st.ball_dir_y := by
      rw [← hden, hlast]; rw [hh] at htop; linarith
    have hc : (advance st).ball_pos_y
        - ((advance st).ball_pos_y - FIELD_HEIGHT * 0.5) /
            ((advance st).ball_pos_y - (advance st).last_ball_pos_y)
          * (st.speed * st.ball_dir_y) = FIELD_HEIGHT * 0.5 := by
      rw [hden, div_mul_cancel₀ _ hdy.ne']
      ring
    refine ⟨_, rfl, hc, ?_, ?_, ?_⟩
    · rw [wallStep_some (reflect_high htop)]
      rfl
    · rw [wallStep_some (reflect_high htop)]
      dsimp only
      simp only [show (advance st).speed = st.speed from rfl,
        show (advance st).ball_dir_y = st.ball_dir_y from rfl]
      linear_combination hc
    · rw [wallStep_some (reflect_high htop)]
      rfl
  · intro hbot
    have h1 : (advance st).ball_pos_y ≤ FIELD_HEIGHT * 0.5 := by
      rw [hh]; rw [hh] at hbot; linarith
    have h2 : FIELD_HEIGHT * 0.5 < -(advance st).ball_pos_y := by
      rw [hh]; rw [hh] at hbot; linarith
    have hdy : st.speed * st.ball_dir_y < 0 := by
      rw [← hden, hlast]; rw [hh] at hbot; linarith
    have hden' : (advance st).last_ball_pos_y - (advance st).ball_pos_y
        = -(st.speed * st.ball_dir_y) := by rw [← hden]; ring
    have hc : (advance st).ball_pos_y
        - (-(advance st).ball_pos_y - FIELD_HEIGHT * 0.5) /
            ((advance st).last_ball_pos_y - (advance st).ball_pos_y)
          * (st.speed * st.ball_dir_y) = -(FIELD_HEIGHT * 0.5) := by
      rw [hden', div_neg, neg_mul, div_mul_cancel₀ _ hdy.ne]
      ring
    refine ⟨_, rfl, hc, ?_, ?_, ?_⟩
    · rw [wallStep_some (reflect_low h1 h2)]
      rfl
    · rw [wallStep_some (reflect_low h1 h2)]
      dsimp only
      simp only [show (advance st).speed = st.speed from rfl,
        show (advance st).ball_dir_y = st.ball_dir_y from rfl]
      linear_combination hc
    · rw [wallStep_some (reflect_low h1 h2)]
      rfl

/-- A concrete pre-tick state: ball and previous position at `(0, 5/2)`,
direction `(3/5, 4/5)` (unit length), speed `5/2`, both players active.  In
the tick from here, `y` crosses the top wall with overshoot fraction
`t = 1/4` and neither the paddle check nor the scoring check fires. -/
def stC1 : GameState :=
  { paddle0 := 0, paddle1 := 0, active0 := true, active1 := true
    score0 := 0, score1 := 0
    last_ball_pos_x := 0, last_ball_pos_y := 5/2
    ball_pos_x := 0, ball_pos_y := 5/2
    ball_dir_x := 3/5, ball_dir_y := 4/5, speed := 5/2 }

/-- Claim C1 counterexample: at `stC1` the top wall is crossed with
`t = (pos - limit)/(pos - last_pos) = 1/4`; the code's post-reflection
y-coordinate (also the post-step y) is `7/2`, while the claim's
crossing-point-plus-`(1-t)`-fraction formula predicts `5/2`. -/
theorem wall_reflection_claim_cex :
    FIELD_HEIGHT * 0.5 < (advance stC1).ball_pos_y ∧
    ((advance stC1).ball_pos_y - FIELD_HEIGHT * 0.5) /
        ((advance stC1).ball_pos_y - (advance stC1).last_ball_pos_y) = 1/4 ∧
    (wallStep (advance stC1)).2.ball_pos_y = 7/2 ∧
    (spinOnce true stC1).ball_pos_y = 7/2 ∧
    FIELD_HEIGHT * 0.5 + (1 - (1/4 : ℝ)) * (stC1.speed * (-stC1.ball_dir_y)) = 5/2 ∧
    (7/2 : ℝ) ≠ 5/2 := by
  have hay : (advance stC1).ball_pos_y = 9/2 := by norm_num [advance, stC1]
  have haly : (advance stC1).last_ball_pos_y = 5/2 := by norm_num [advance, stC1]
  have hr : reflect (advance stC1).ball_pos_y (advance stC1).last_ball_pos_y
      (FIELD_HEIGHT * 0.5) = some (1/4) := by
    rw [reflect_high (show FIELD_HEIGHT * 0.5 < (advance stC1).ball_pos_y by
      rw [half_height, hay]; norm_num)]
    rw [hay, haly, half_height]; norm_num
  have hwy : (wallStep (advance stC1)).2.ball_pos_y = 7/2 := by
    rw [wallStep_some hr]; dsimp only; norm_num [advance, stC1]
  have hwx : (wallStep (advance stC1)).2.ball_pos_x = 3/2 := by
    rw [wallStep_some hr]; dsimp only; norm_num [advance, stC1]
  have hnpc : ¬(|(wallStep (advance stC1)).2.last_ball_pos_x| < FIELD_WIDTH * 0.5 ∧
      FIELD_WIDTH * 0.5 ≤ |(wallStep (advance stC1)).2.ball_pos_x|) := by
    rw [hwx, half_width]
    rintro ⟨-, h⟩
    rw [abs_of_pos (show (0:ℝ) < 3/2 by norm_num)] at h
    norm_num at h
  have hspin : (spinOnce true stC1).ball_pos_y = 7/2 := by
    rw [spinOnce_active true stC1 rfl rfl, tick_eq, paddleStep_not_crossing hnpc]
    dsimp only
    rw [scoreStep_none (show |(wallStep (advance stC1)).2.ball_pos_x|
        < FIELD_WIDTH * 0.5 + 1.5 * BORDER_SIZE by
      rw [hwx, outer_limit, abs_of_pos (show (0:ℝ) < 3/2 by norm_num)]; norm_num)]
    rw [(finalize_fields _).2.1]
    exact hwy
  exact ⟨by rw [half_height, hay]; norm_num,
    by rw [hay, haly, half_height]; norm_num, hwy, hspin,
    by norm_num [stC1, FIELD_HEIGHT], by norm_num⟩

/-- Witness for the amended claim C1 at the concrete state `stC1`:
`t = 1/4` there, and the post-reflection y-coordinate equals the wall
height plus `t` times the inverted y-displacement. -/
theorem wall_reflection_overshoot_witness :
    (wallStep (advance stC1)).2.ball_pos_y
      = FIELD_HEIGHT * 0.5 + (1/4 : ℝ) * (stC1.speed * (-stC1.ball_dir_y)) := by
  obtain ⟨t, ht, -, -, hy4, -⟩ :=
    (wall_reflection_overshoot stC1 rfl (by norm_num [stC1, FIELD_HEIGHT, abs_le])).1
      (by norm_num [advance, stC1, FIELD_HEIGHT])
  rw [hy4, ht]
  norm_num [advance, stC1, FIELD_HEIGHT]

lemma wallStep_score0 (st : GameState) : (wallStep st).2.score0 = st.score0 := by
  unfold wallStep
  cases reflect st.ball_pos_y st.last_ball_pos_y (FIELD_HEIGHT * 0.5) <;> rfl

lemma wallStep_score1 (st : GameState) : (wallStep st).2.score1 = st.score1 := by
  unfold wallStep
  cases reflect st.ball_pos_y st.last_ball_pos_y (FIELD_HEIGHT * 0.5) <;> rfl

lemma wallStep_ball_pos_x (st : GameState) :
    (wallStep st).2.ball_pos_x = st.ball_pos_x := by
  unfold wallStep
  cases reflect st.ball_pos_y st.last_ball_pos_y (FIELD_HEIGHT * 0.5)
  · rfl
  · dsimp only; ring

lemma wallStep_ball_dir_x (st : GameState) :
    (wallStep st).2.ball_dir_x = st.ball_dir_x := by
  unfold wallStep
  cases reflect st.ball_pos_y st.last_ball_pos_y (FIELD_HEIGHT * 0.5) <;> rfl

lemma wallStep_speed (st : GameState) : (wallStep st).2.speed = st.speed := by
  unfold wallStep
  cases reflect st.ball_pos_y st.last_ball_pos_y (FIELD_HEIGHT * 0.5) <;> rfl

lemma wallStep_last_x (st : GameState) :
    (wallStep st).2.last_ball_pos_x = st.last_ball_pos_x := by
  unfold wallStep
  cases reflect st.ball_pos_y st.last_ball_pos_y (FIELD_HEIGHT * 0.5) <;> rfl

lemma wallStep_last_y (st : GameState) :
    (wallStep st).2.last_ball_pos_y = st.last_ball_pos_y := by
  unfold wallStep
  cases reflect st.ball_pos_y st.last_ball_pos_y (FIELD_HEIGHT * 0.5) <;> rfl

lemma paddleStep_score0 (player : ℕ) (t0 : ℝ) (st : GameState) :
    (paddleStep player t0 st).2.score0 = st.score0 := by
  unfold paddleStep; split_ifs <;> rfl

lemma paddleStep_score1 (player : ℕ) (t0 : ℝ) (st : GameState) :
    (paddleStep player t0 st).2.score1 = st.score1 := by
  unfold paddleStep; split_ifs <;> rfl

lemma paddleStep_speed (player : ℕ) (t0 : ℝ) (st : GameState) :
    (paddleStep player t0 st).2.speed = st.speed := by
  unfold paddleStep; split_ifs <;> rfl

lemma paddleStep_last_x (player : ℕ) (t0 : ℝ) (st : GameState) :
    (paddleStep player t0 st).2.last_ball_pos_x = st.last_ball_pos_x := by
  unfold paddleStep; split_ifs <;> rfl

lemma paddleStep_last_y (player : ℕ) (t0 : ℝ) (st : GameState) :
    (paddleStep player t0 st).2.last_ball_pos_y = st.last_ball_pos_y := by
  unfold paddleStep; split_ifs <;> rfl

lemma advance_score0 (st : GameState) : (advance st).score0 = st.score0 := rfl

lemma advance_score1 (st : GameState) : (advance st).score1 = st.score1 := rfl

lemma advance_last_x (st : GameState) :
    (advance st).last_ball_pos_x = st.last_ball_pos_x := rfl

lemma advance_last_y (st : GameState) :
    (advance st).last_ball_pos_y = st.last_ball_pos_y := rfl

/-- Shape of a tick in which the scoring branch fires: the ball is re-served
at the field center with unit direction and the post-tick speed is the base
serve speed plus one rally increment (line 157 runs after `reset()`); the
score of side `1 - player` is incremented. -/
lemma tick_score_fields (b : Bool) (st : GameState)
    (hsc : FIELD_WIDTH * 0.5 + 1.5 * BORDER_SIZE ≤ |postBounceX st|) :
    (tick b st).ball_pos_x = 0 ∧ (tick b st).ball_pos_y = 0 ∧
    (tick b st).last_ball_pos_x = 0 ∧ (tick b st).last_ball_pos_y = 0 ∧
    (tick b st).ball_dir_x ^ 2 + (tick b st).ball_dir_y ^ 2 = 1 ∧
    (tick b st).speed = 5 * UPDATE_RATE + 0.0002 ∧
    (playerOf (wallStep (advance st)).2 = 1 →
      (tick b st).score0 = st.score0 + 1 ∧ (tick b st).score1 = st.score1) ∧
    (playerOf (wallStep (advance st)).2 ≠ 1 →
      (tick b st).score1 = st.score1 + 1 ∧ (tick b st).score0 = st.score0) := by
  unfold postBounceX at hsc
  rw [tick_eq, scoreStep_fired hsc]
  refine ⟨rfl, rfl, rfl, rfl, reset_dir_unit b _, rfl, ?_, ?_⟩
  · intro hp
    dsimp only [finalize, reset]
    rw [if_pos hp]
    dsimp only
    constructor
    · rw [paddleStep_score0, wallStep_score0, advance_score0]
    · rw [paddleStep_score1, wallStep_score1, advance_score1]
  · intro hp
    dsimp only [finalize, reset]
    rw [if_neg hp]
    dsimp only
    constructor
    · rw [paddleStep_score1, wallStep_score1, advance_score1]
    · rw [paddleStep_score0, wallStep_score0, advance_score0]

/-! ### Claim C3 -/

/-- Claim C3 (amended): after a `spinOnce` tick in which a point is scored,
the ball is at the field center with `previous_position` equal to it, the
direction is unit length, and the speed equals the base serve value *plus
one rally increment* `0.0002` — the per-tick speed increase of line 157 runs
after `reset()`, so the speed observed between points is
`5 * UPDATE_RATE + 0.0002`, not the bare base value. -/
theorem score_tick_state (b : Bool) (st : GameState)
    (h0 : st.active0 = true) (h1 : st.active1 = true)
    (hsc : FIELD_WIDTH * 0.5 + 1.5 * BORDER_SIZE ≤ |postBounceX st|) :
    (spinOnce b st).ball_pos_x = 0 ∧ (spinOnce b st).ball_pos_y = 0 ∧
    (spinOnce b st).last_ball_pos_x = 0 ∧ (spinOnce b st).last_ball_pos_y = 0 ∧
    (spinOnce b st).ball_dir_x ^ 2 + (spinOnce b st).ball_dir_y ^ 2 = 1 ∧
    (spinOnce b st).speed = 5 * UPDATE_RATE + 0.0002 := by
  rw [spinOnce_active b st h0 h1]
  obtain ⟨c1, c2, c3, c4, c5, c6, -, -⟩ := tick_score_fields b st hsc
  exact ⟨c1, c2, c3, c4, c5, c6⟩

/-- A concrete pre-tick state from which the tick scores a point for side 0:
ball at `(67/10, 0)` moving right with direction `(1, 0)` at base speed
`1/6`; the tick carries it to `x = 103/15 ≥ 27/4`. -/
def stC3 : GameState :=
  { paddle0 := 0, paddle1 := 0, active0 := true, active1 := true
    score0 := 0, score1 := 0
    last_ball_pos_x := 67/10, last_ball_pos_y := 0
    ball_pos_x := 67/10, ball_pos_y := 0
    ball_dir_x := 1, ball_dir_y := 0, speed := 1/6 }

lemma advance_stC3_x : (advance stC3).ball_pos_x = 103/15 := by
  norm_num [advance, stC3]

lemma wallStep_stC3 : wallStep (advance stC3) = (0, advance stC3) :=
  wallStep_none (by norm_num [advance, stC3, FIELD_HEIGHT])
    (by norm_num [advance, stC3, FIELD_HEIGHT])

lemma postBounceX_stC3 : postBounceX stC3 = 103/15 := by
  unfold postBounceX
  rw [wallStep_stC3]
  dsimp only
  rw [paddleStep_not_crossing (by
    rw [advance_last_x, half_width]
    rintro ⟨h1, -⟩
    rw [show stC3.last_ball_pos_x = 67/10 from rfl,
        abs_of_pos (show (0:ℝ) < 67/10 by norm_num)] at h1
    norm_num at h1)]
  exact advance_stC3_x

lemma score_cond_stC3 :
    FIELD_WIDTH * 0.5 + 1.5 * BORDER_SIZE ≤ |postBounceX stC3| := by
  rw [postBounceX_stC3, outer_limit,
      abs_of_pos (show (0:ℝ) < 103/15 by norm_num)]
  norm_num

/-- Claim C3 counterexample: in the concrete scoring tick from `stC3` the
total score increases by one (a point is scored), yet the post-tick speed is
`5 * UPDATE_RATE + 0.0002`, not the base serve value `5 * UPDATE_RATE`
claimed by the spec. -/
lemma playerOf_stC3 : playerOf (wallStep (advance stC3)).2 = 1 := by
  rw [wallStep_stC3]
  unfold playerOf
  rw [if_pos (by rw [advance_stC3_x]; norm_num : 0 < (advance stC3).ball_pos_x)]

theorem score_tick_speed_cex :
    (spinOnce true stC3).score0 + (spinOnce true stC3).score1
        = stC3.score0 + stC3.score1 + 1 ∧
    (spinOnce true stC3).speed = 5 * UPDATE_RATE + 0.0002 ∧
    (5 * UPDATE_RATE + 0.0002 : ℝ) ≠ 5 * UPDATE_RATE := by
  obtain ⟨-, -, -, -, -, c6, cs, -⟩ := tick_score_fields true stC3 score_cond_stC3
  obtain ⟨cs0, cs1⟩ := cs playerOf_stC3
  rw [spinOnce_active true stC3 rfl rfl]
  refine ⟨?_, c6, by norm_num [UPDATE_RATE]⟩
  rw [cs0, cs1]
  ring

/-- Witness for the amended claim C3 at the concrete scoring state `stC3`. -/
theorem score_tick_state_witness :
    (spinOnce true stC3).ball_pos_x = 0 ∧ (spinOnce true stC3).ball_pos_y = 0 ∧
    (spinOnce true stC3).last_ball_pos_x = 0 ∧
    (spinOnce true stC3).last_ball_pos_y = 0 ∧
    (spinOnce true stC3).ball_dir_x ^ 2 + (spinOnce true stC3).ball_dir_y ^ 2 = 1 ∧
    (spinOnce true stC3).speed = 5 * UPDATE_RATE + 0.0002 :=
  score_tick_state true stC3 rfl rfl score_cond_stC3

/-! ### Claim C9 -/

/-- Claim C9: for every side in `{0, 1}` and every input `y` — including
values arbitrarily far outside the field — the stored paddle position after
the feedback lies within `[-(FIELD_HEIGHT - PADDLE_SIZE)/2,
(FIELD_HEIGHT - PADDLE_SIZE)/2]`, and the operation changes neither the
ball state nor the scores. -/
theorem paddle_feedback_clamped (st : GameState) (p : ℕ) (hp : p ≤ 1) (y : ℝ)
    (ev : FeedbackEvent) :
    (-((FIELD_HEIGHT - PADDLE_SIZE) * 0.5)
        ≤ paddlePos (processPaddleFeedback p y ev st) p ∧
      paddlePos (processPaddleFeedback p y ev st) p
        ≤ (FIELD_HEIGHT - PADDLE_SIZE) * 0.5) ∧
    (processPaddleFeedback p y ev st).ball_pos_x = st.ball_pos_x ∧
    (processPaddleFeedback p y ev st).ball_pos_y = st.ball_pos_y ∧
    (processPaddleFeedback p y ev st).last_ball_pos_x = st.last_ball_pos_x ∧
    (processPaddleFeedback p y ev st).last_ball_pos_y = st.last_ball_pos_y ∧
    (processPaddleFeedback p y ev st).ball_dir_x = st.ball_dir_x ∧
    (processPaddleFeedback p y ev st).ball_dir_y = st.ball_dir_y ∧
    (processPaddleFeedback p y ev st).speed = st.speed ∧
    (processPaddleFeedback p y ev st).score0 = st.score0 ∧
    (processPaddleFeedback p y ev st).score1 = st.score1 := by
  have hp1 : ¬(1 < p) := not_lt.mpr hp
  unfold processPaddleFeedback setActive paddlePos
  rw [if_neg hp1]
  interval_cases p <;> cases ev <;>
    refine ⟨?_, ?_, ?_, ?_, ?_, ?_, ?_, ?_, ?_, ?_⟩ <;>
      norm_num [FIELD_HEIGHT, PADDLE_SIZE] <;>
      split_ifs <;>
      first
        | rfl
        | (constructor <;> linarith)

/-- Witness for claim C9: pushing paddle 1 to `y = 100` leaves its stored
position inside the clamp interval. -/
theorem paddle_feedback_clamped_witness :
    -((FIELD_HEIGHT - PADDLE_SIZE) * 0.5)
        ≤ paddlePos (processPaddleFeedback 1 100 FeedbackEvent.poseUpdate stC1) 1 ∧
    paddlePos (processPaddleFeedback 1 100 FeedbackEvent.poseUpdate stC1) 1
        ≤ (FIELD_HEIGHT - PADDLE_SIZE) * 0.5 :=
  (paddle_feedback_clamped stC1 1 (by norm_num) 100 FeedbackEvent.poseUpdate).1

/-! ### Claim C10 -/

/-- Claim C10: after any `reset`, both direction components have magnitude
exactly `√2 / 2` (each serve departs at exactly 45° above or below the
horizontal; the vertical bias is only a random sign choice), and the sign of
`direction.x` is preserved from the direction held before the reset. -/
theorem reset_serve_direction (b : Bool) (st : GameState) :
    |(reset b st).ball_dir_x| = Real.sqrt 2 / 2 ∧
    |(reset b st).ball_dir_y| = Real.sqrt 2 / 2 ∧
    (0 < st.ball_dir_x → 0 < (reset b st).ball_dir_x) ∧
    (st.ball_dir_x < 0 → (reset b st).ball_dir_x < 0) := by
  refine ⟨?_, ?_, reset_dirx_pos b, reset_dirx_neg b⟩
  · rw [(reset_dir_eq b st).1]
    exact normalizeVel_pm_one_fst_abs (by split_ifs <;> simp) (by split_ifs <;> simp)
  · rw [(reset_dir_eq b st).2]
    exact normalizeVel_pm_one_snd_abs (by split_ifs <;> simp) (by split_ifs <;> simp)

/-- Witness for claim C10 at a concrete state with `ball_dir_x = 1`. -/
theorem reset_serve_direction_witness :
    |(reset true stC3).ball_dir_x| = Real.sqrt 2 / 2 ∧
    0 < (reset true stC3).ball_dir_x :=
  ⟨(reset_serve_direction true stC3).1,
   (reset_serve_direction true stC3).2.2.1 (by norm_num [stC3])⟩

lemma processPaddleFeedback_scores (p : ℕ) (y : ℝ) (ev : FeedbackEvent)
    (st : GameState) :
    (processPaddleFeedback p y ev st).score0 = st.score0 ∧
    (processPaddleFeedback p y ev st).score1 = st.score1 := by
  unfold processPaddleFeedback setActive
  by_cases hp : 1 < p
  · rw [if_pos hp]; exact ⟨rfl, rfl⟩
  · rw [if_neg hp]
    cases ev <;> split_ifs <;> exact ⟨rfl, rfl⟩

lemma tick_noscore_scores (b : Bool) (st : GameState)
    (h : |postBounceX st| < FIELD_WIDTH * 0.5 + 1.5 * BORDER_SIZE) :
    (tick b st).score0 = st.score0 ∧ (tick b st).score1 = st.score1 := by
  rw [tick_eq, scoreStep_none (by unfold postBounceX at h; exact h)]
  constructor
  · rw [(finalize_fields _).2.2.2.2.2.2.2.1, paddleStep_score0, wallStep_score0,
        advance_score0]
  · rw [(finalize_fields _).2.2.2.2.2.2.2.2, paddleStep_score1, wallStep_score1,
        advance_score1]

/-! ### Claim C6 -/

/-- Claim C6: in a `spinOnce` tick some score changes if and only if both
players are active and the magnitude of the ball's x-coordinate (after the
tick's motion and reflections, where line 135 evaluates it) reaches
`FIELD_WIDTH/2 + 1.5 * BORDER_SIZE`; when it does, exactly the side
`1 - player` — where `player` is `1` if the ball's x is positive and `0`
otherwise — gains exactly one point; and neither `processPaddleFeedback`
nor `reset` ever changes a score. -/
theorem score_increment_iff (b : Bool) (st : GameState) :
    (((spinOnce b st).score0 ≠ st.score0 ∨ (spinOnce b st).score1 ≠ st.score1) ↔
      ((st.active0 = true ∧ st.active1 = true) ∧
        FIELD_WIDTH * 0.5 + 1.5 * BORDER_SIZE ≤ |postBounceX st|)) ∧
    ((st.active0 = true ∧ st.active1 = true) →
      FIELD_WIDTH * 0.5 + 1.5 * BORDER_SIZE ≤ |postBounceX st| →
      (playerOf (wallStep (advance st)).2 = 1 →
        (spinOnce b st).score0 = st.score0 + 1 ∧
        (spinOnce b st).score1 = st.score1) ∧
      (playerOf (wallStep (advance st)).2 ≠ 1 →
        (spinOnce b st).score1 = st.score1 + 1 ∧
        (spinOnce b st).score0 = st.score0)) ∧
    (∀ (p : ℕ) (y : ℝ) (ev : FeedbackEvent),
      (processPaddleFeedback p y ev st).score0 = st.score0 ∧
      (processPaddleFeedback p y ev st).score1 = st.score1) ∧
    (∀ c : Bool, (reset c st).score0 = st.score0 ∧
      (reset c st).score1 = st.score1) := by
  refine ⟨?_, ?_, fun p y ev => processPaddleFeedback_scores p y ev st,
    fun c => reset_scores c st⟩
  · by_cases hact : st.active0 = true ∧ st.active1 = true
    · rw [spinOnce_active b st hact.1 hact.2]
      by_cases hsc : FIELD_WIDTH * 0.5 + 1.5 * BORDER_SIZE ≤ |postBounceX st|
      · simp only [hact, hsc, and_self, iff_true]
        obtain ⟨-, -, -, -, -, -, cs1, cs2⟩ := tick_score_fields b st hsc
        by_cases hply : playerOf (wallStep (advance st)).2 = 1
        · left; rw [(cs1 hply).1]; omega
        · right; rw [(cs2 hply).1]; omega
      · obtain ⟨e0, e1⟩ := tick_noscore_scores b st (not_le.mp hsc)
        simp [e0, e1, hsc]
    · rw [spinOnce_inactive b st hact]
      simp [hact]
  · intro hact1 hsc
    rw [spinOnce_active b st hact1.1 hact1.2]
    obtain ⟨-, -, -, -, -, -, cs1, cs2⟩ := tick_score_fields b st hsc
    exact ⟨cs1, cs2⟩

/-- Witness for claim C6 at the concrete scoring state `stC3`: the ball
exits on the right (`player = 1`), so side 0 gains exactly one point. -/
theorem score_increment_iff_witness :
    (spinOnce true stC3).score0 = stC3.score0 + 1 ∧
    (spinOnce true stC3).score1 = stC3.score1 :=
  ((score_increment_iff true stC3).2.1 ⟨rfl, rfl⟩ score_cond_stC3).1 playerOf_stC3

lemma paddleStep_fired_dir (player : ℕ) (t0 : ℝ) (st : GameState)
    (h1 : |st.last_ball_pos_x| < FIELD_WIDTH * 0.5 ∧
          FIELD_WIDTH * 0.5 ≤ |st.ball_pos_x|)
    (h2 : paddlePos st player - PADDLE_SIZE * 0.5 - 0.5 * BORDER_SIZE < st.ball_pos_y ∧
          st.ball_pos_y < paddlePos st player + PADDLE_SIZE * 0.5 + 0.5 * BORDER_SIZE) :
    ∃ w : ℝ,
      (paddleStep player t0 st).2.ball_dir_x
          = (clampDir (normalizeVel (-st.ball_dir_x) w)).1 ∧
      (paddleStep player t0 st).2.ball_dir_y
          = (clampDir (normalizeVel (-st.ball_dir_x) w)).2 := by
  rw [paddleStep_fired h1 h2]
  exact ⟨_, rfl, rfl⟩

lemma scoreStep_dirx_sign (b : Bool) (player : ℕ) (t0 : ℝ) (st : GameState) :
    (0 < st.ball_dir_x → 0 < (scoreStep b player t0 st).ball_dir_x) ∧
    (st.ball_dir_x < 0 → (scoreStep b player t0 st).ball_dir_x < 0) := by
  unfold scoreStep
  split_ifs with h hp
  · exact ⟨fun hx => reset_dirx_pos b hx, fun hx => reset_dirx_neg b hx⟩
  · exact ⟨fun hx => reset_dirx_pos b hx, fun hx => reset_dirx_neg b hx⟩
  · exact ⟨fun hx => hx, fun hx => hx⟩

/-! ### Claim C7 -/

/-- Claim C7: after any tick in which a paddle reflection occurs, the
resulting y-direction satisfies `|direction.y| ≤ √2/2 = sin 45°`: when the
spin adjustment pushes the normalized `|dir.y|` above the code's threshold
`0.707106781`, both components are replaced by `±1` according to their
signs and renormalized, capping the rebound angle at 45°. -/
theorem paddle_rebound_angle (b : Bool) (st : GameState)
    (h0 : st.active0 = true) (h1 : st.active1 = true)
    (hc : paddleCond (wallStep (advance st)).2) :
    |(spinOnce b st).ball_dir_y| ≤ Real.sqrt 2 / 2 := by
  rw [spinOnce_active b st h0 h1, tick_eq, (finalize_fields _).2.2.2.1]
  obtain ⟨w, -, hdy⟩ := paddleStep_fired_dir (playerOf (wallStep (advance st)).2)
      (wallStep (advance st)).1 (wallStep (advance st)).2 hc.1 hc.2
  unfold scoreStep
  split_ifs with hs hp
  · rw [(reset_dir_eq b _).2]
    exact le_of_eq
      (normalizeVel_pm_one_snd_abs (by split_ifs <;> simp) (by split_ifs <;> simp))
  · rw [(reset_dir_eq b _).2]
    exact le_of_eq
      (normalizeVel_pm_one_snd_abs (by split_ifs <;> simp) (by split_ifs <;> simp))
  · rw [hdy]
    exact clampDir_snd_le _

/-- A concrete pre-tick state in which the ball crosses the right goal line
and hits paddle 1 (at `y = 6/5`): ball at `(7/2, -7/2)`, direction
`(3/5, 4/5)`, speed `5`.  The displacement's endpoint `(13/2, 1/2)` is
inside the paddle window `(-1/20, 49/20)`, but the y-coordinate at the
crossing point of the goal line, `-1/6`, is not. -/
def stC2 : GameState :=
  { paddle0 := 0, paddle1 := 6/5, active0 := true, active1 := true
    score0 := 0, score1 := 0
    last_ball_pos_x := 7/2, last_ball_pos_y := -7/2
    ball_pos_x := 7/2, ball_pos_y := -7/2
    ball_dir_x := 3/5, ball_dir_y := 4/5, speed := 5 }

lemma wallStep_stC2 : wallStep (advance stC2) = (0, advance stC2) :=
  wallStep_none (by norm_num [advance, stC2, FIELD_HEIGHT])
    (by norm_num [advance, stC2, FIELD_HEIGHT])

lemma playerOf_stC2 : playerOf (advance stC2) = 1 := by
  unfold playerOf
  rw [if_pos (show 0 < (advance stC2).ball_pos_x by norm_num [advance, stC2])]

lemma paddleCond_stC2 : paddleCond (wallStep (advance stC2)).2 := by
  rw [wallStep_stC2]
  unfold paddleCond
  rw [playerOf_stC2]
  have hpp : paddlePos (advance stC2) 1 = 6/5 := by
    unfold paddlePos
    norm_num [advance, stC2]
  rw [hpp, half_width]
  have h1 : (advance stC2).last_ball_pos_x = 7/2 := by norm_num [advance, stC2]
  have h2 : (advance stC2).ball_pos_x = 13/2 := by norm_num [advance, stC2]
  have h3 : (advance stC2).ball_pos_y = 1/2 := by norm_num [advance, stC2]
  rw [h1, h2, h3, abs_of_pos (show (0:ℝ) < 7/2 by norm_num),
      abs_of_pos (show (0:ℝ) < 13/2 by norm_num)]
  norm_num [PADDLE_SIZE, BORDER_SIZE]

/-- Witness for claim C7: the paddle hit from `stC2` leaves
`|direction.y| ≤ √2/2`. -/
theorem paddle_rebound_angle_witness :
    |(spinOnce true stC2).ball_dir_y| ≤ Real.sqrt 2 / 2 :=
  paddle_rebound_angle true stC2 rfl rfl paddleCond_stC2

/-! ### Claim C2 -/

/-- A paddle reflection (in the sign-of-`dir.x` sense) happens whenever the
swept crossing test and the endpoint window test of lines 100-105 hold. -/
lemma paddleCond_flips (b : Bool) (st : GameState)
    (h0 : st.active0 = true) (h1 : st.active1 = true)
    (hlx : st.ball_pos_x = st.last_ball_pos_x)
    (hc : paddleCond (wallStep (advance st)).2) :
    st.ball_dir_x * (spinOnce b st).ball_dir_x < 0 := by
  have hWdx : (wallStep (advance st)).2.ball_dir_x = st.ball_dir_x := by
    rw [wallStep_ball_dir_x]
    rfl
  have hdx0 : st.ball_dir_x ≠ 0 := by
    intro hz
    have hx1 : (wallStep (advance st)).2.ball_pos_x = st.last_ball_pos_x := by
      rw [wallStep_ball_pos_x]
      show st.ball_pos_x + st.speed * st.ball_dir_x = _
      rw [hz, hlx]; ring
    have hx2 := hc.1.1
    rw [wallStep_last_x, advance_last_x] at hx2
    have hx3 := hc.1.2
    rw [hx1] at hx3
    linarith
  rw [spinOnce_active b st h0 h1, tick_eq, (finalize_fields _).2.2.1]
  obtain ⟨w, hdx, -⟩ := paddleStep_fired_dir (playerOf (wallStep (advance st)).2)
      (wallStep (advance st)).1 (wallStep (advance st)).2 hc.1 hc.2
  rcases hdx0.lt_or_lt with hneg | hpos
  · have hP : 0 < (paddleStep (playerOf (wallStep (advance st)).2)
        (wallStep (advance st)).1 (wallStep (advance st)).2).2.ball_dir_x := by
      rw [hdx]
      apply clampDir_fst_pos
      apply normalizeVel_fst_pos
      rw [hWdx]
      linarith
    exact mul_neg_of_neg_of_pos hneg ((scoreStep_dirx_sign b _ _ _).1 hP)
  · have hP : (paddleStep (playerOf (wallStep (advance st)).2)
        (wallStep (advance st)).1 (wallStep (advance st)).2).2.ball_dir_x < 0 := by
      rw [hdx]
      apply clampDir_fst_neg
      apply normalizeVel_fst_neg
      rw [hWdx]
      linarith
    exact mul_neg_of_pos_of_neg hpos ((scoreStep_dirx_sign b _ _ _).2 hP)

/-- Claim C2 (amended): in a tick (from a state with
`position = previous_position` and positive speed, both players active), the
x-direction is inverted — a paddle reflection happens — if and only if the
ball crossed the goal line this tick (`|last.x| < W/2 ≤ |pos.x|`) AND the
ball's y-coordinate *at the end of the tick's displacement* (after any wall
bounce — the value the code tests in lines 104-105), not at the crossing
point, lies strictly within `paddle_position ± (PADDLE/2 + BORDER/2)`. -/
theorem paddle_reflection_iff (b : Bool) (st : GameState)
    (h0 : st.active0 = true) (h1 : st.active1 = true)
    (hlx : st.ball_pos_x = st.last_ball_pos_x) :
    st.ball_dir_x * (spinOnce b st).ball_dir_x < 0 ↔
      paddleCond (wallStep (advance st)).2 := by
  constructor
  · intro hprod
    by_contra hnc
    have hid : paddleStep (playerOf (wallStep (advance st)).2)
        (wallStep (advance st)).1 (wallStep (advance st)).2
        = ((wallStep (advance st)).1, (wallStep (advance st)).2) := by
      by_cases hA : |(wallStep (advance st)).2.last_ball_pos_x| < FIELD_WIDTH * 0.5 ∧
          FIELD_WIDTH * 0.5 ≤ |(wallStep (advance st)).2.ball_pos_x|
      · exact paddleStep_not_window (fun hB => hnc ⟨hA, hB⟩)
      · exact paddleStep_not_crossing hA
    rw [spinOnce_active b st h0 h1, tick_eq, (finalize_fields _).2.2.1, hid] at hprod
    dsimp only at hprod
    have hWdx : (wallStep (advance st)).2.ball_dir_x = st.ball_dir_x := by
      rw [wallStep_ball_dir_x]
      rfl
    rcases lt_trichotomy st.ball_dir_x 0 with hneg | hz | hpos
    · have hS : (scoreStep b (playerOf (wallStep (advance st)).2)
          (wallStep (advance st)).1 (wallStep (advance st)).2).ball_dir_x < 0 :=
        (scoreStep_dirx_sign b _ _ _).2 (by rw [hWdx]; exact hneg)
      have := mul_pos_of_neg_of_neg hneg hS
      linarith
    · rw [hz, zero_mul] at hprod
      exact lt_irrefl 0 hprod
    · have hS : 0 < (scoreStep b (playerOf (wallStep (advance st)).2)
          (wallStep (advance st)).1 (wallStep (advance st)).2).ball_dir_x :=
        (scoreStep_dirx_sign b _ _ _).1 (by rw [hWdx]; exact hpos)
      have := mul_pos hpos hS
      linarith
  · exact paddleCond_flips b st h0 h1 hlx

/-- Claim C2 counterexample: in the tick from `stC2` a paddle reflection
occurs (`dir.x` flips from positive to negative), yet the ball's
y-coordinate evaluated at the goal-line crossing point, `-1/6`, is NOT
within `paddle_position ± (PADDLE/2 + BORDER/2) = (-1/20, 49/20)`; the code
tests the end-of-displacement y (`1/2`), not the crossing-point y. -/
theorem paddle_window_claim_cex :
    0 < stC2.ball_dir_x ∧
    stC2.ball_dir_x * (spinOnce true stC2).ball_dir_x < 0 ∧
    (advance stC2).ball_pos_y
        - (((advance stC2).ball_pos_x - FIELD_WIDTH * 0.5) /
           ((advance stC2).ball_pos_x - (advance stC2).last_ball_pos_x))
          * (stC2.speed * stC2.ball_dir_y) = -(1/6) ∧
    ¬(paddlePos stC2 1 - PADDLE_SIZE * 0.5 - 0.5 * BORDER_SIZE < -(1/6 : ℝ) ∧
      (-(1/6 : ℝ)) < paddlePos stC2 1 + PADDLE_SIZE * 0.5 + 0.5 * BORDER_SIZE) := by
  refine ⟨by norm_num [stC2],
    paddleCond_flips true stC2 rfl rfl rfl paddleCond_stC2,
    ?_, ?_⟩
  · norm_num [advance, stC2, FIELD_WIDTH]
  · rintro ⟨hlow, -⟩
    norm_num [stC2, paddlePos, PADDLE_SIZE, BORDER_SIZE] at hlow

/-- Witness for the amended claim C2 at `stC2`: the endpoint-window
condition holds there, so the x-direction flips. -/
theorem paddle_reflection_iff_witness :
    stC2.ball_dir_x * (spinOnce true stC2).ball_dir_x < 0 :=
  (paddle_reflection_iff true stC2 rfl rfl rfl).mpr paddleCond_stC2

lemma processPaddleFeedback_ball (p : ℕ) (y : ℝ) (ev : FeedbackEvent)
    (st : GameState) :
    (processPaddleFeedback p y ev st).ball_pos_x = st.ball_pos_x ∧
    (processPaddleFeedback p y ev st).ball_pos_y = st.ball_pos_y ∧
    (processPaddleFeedback p y ev st).last_ball_pos_x = st.last_ball_pos_x ∧
    (processPaddleFeedback p y ev st).last_ball_pos_y = st.last_ball_pos_y ∧
    (processPaddleFeedback p y ev st).ball_dir_x = st.ball_dir_x ∧
    (processPaddleFeedback p y ev st).ball_dir_y = st.ball_dir_y := by
  unfold processPaddleFeedback setActive
  by_cases hp : 1 < p
  · rw [if_pos hp]; exact ⟨rfl, rfl, rfl, rfl, rfl, rfl⟩
  · rw [if_neg hp]
    cases ev <;> split_ifs <;> exact ⟨rfl, rfl, rfl, rfl, rfl, rfl⟩

lemma wallStep_unit (st : GameState)
    (h : st.ball_dir_x ^ 2 + st.ball_dir_y ^ 2 = 1) :
    (wallStep st).2.ball_dir_x ^ 2 + (wallStep st).2.ball_dir_y ^ 2 = 1 := by
  unfold wallStep
  cases reflect st.ball_pos_y st.last_ball_pos_y (FIELD_HEIGHT * 0.5)
  · exact h
  · dsimp only
    rw [neg_sq]
    exact h

lemma crossing_dirx_ne (st : GameState)
    (hlx : st.ball_pos_x = st.last_ball_pos_x)
    (hcr : |(wallStep (advance st)).2.last_ball_pos_x| < FIELD_WIDTH * 0.5 ∧
           FIELD_WIDTH * 0.5 ≤ |(wallStep (advance st)).2.ball_pos_x|) :
    st.ball_dir_x ≠ 0 := by
  intro hz
  have hx1 : (wallStep (advance st)).2.ball_pos_x = st.last_ball_pos_x := by
    rw [wallStep_ball_pos_x]
    show st.ball_pos_x + st.speed * st.ball_dir_x = _
    rw [hz, hlx]; ring
  have hx2 := hcr.1
  rw [wallStep_last_x, advance_last_x] at hx2
  have hx3 := hcr.2
  rw [hx1] at hx3
  linarith

lemma paddleStep_id_of_not_cond (t0 : ℝ) (st : GameState) (h : ¬ paddleCond st) :
    paddleStep (playerOf st) t0 st = (t0, st) := by
  by_cases hA : |st.last_ball_pos_x| < FIELD_WIDTH * 0.5 ∧
      FIELD_WIDTH * 0.5 ≤ |st.ball_pos_x|
  · exact paddleStep_not_window (fun hB => h ⟨hA, hB⟩)
  · exact paddleStep_not_crossing hA

lemma tick_dir_unit (b : Bool) (st : GameState)
    (hu : st.ball_dir_x ^ 2 + st.ball_dir_y ^ 2 = 1)
    (hlx : st.ball_pos_x = st.last_ball_pos_x) :
    (tick b st).ball_dir_x ^ 2 + (tick b st).ball_dir_y ^ 2 = 1 := by
  rw [tick_eq]
  have hWu : (wallStep (advance st)).2.ball_dir_x ^ 2
      + (wallStep (advance st)).2.ball_dir_y ^ 2 = 1 :=
    wallStep_unit (advance st) hu
  by_cases hsc : FIELD_WIDTH * 0.5 + 1.5 * BORDER_SIZE ≤ |postBounceX st|
  · rw [scoreStep_fired (by unfold postBounceX at hsc; exact hsc),
        (finalize_fields _).2.2.1, (finalize_fields _).2.2.2.1]
    exact reset_dir_unit b _
  · rw [scoreStep_none (by
        have := not_le.mp hsc
        unfold postBounceX at this
        exact this),
      (finalize_fields _).2.2.1, (finalize_fields _).2.2.2.1]
    by_cases hpc : paddleCond (wallStep (advance st)).2
    · obtain ⟨w, hdx, hdy⟩ := paddleStep_fired_dir (playerOf (wallStep (advance st)).2)
        (wallStep (advance st)).1 (wallStep (advance st)).2 hpc.1 hpc.2
      rw [hdx, hdy]
      apply clampDir_unit
      apply normalizeVel_unit
      apply sq_add_pos_left
      rw [neg_ne_zero, wallStep_ball_dir_x]
      show (advance st).ball_dir_x ≠ 0
      exact crossing_dirx_ne st hlx hpc.1
    · rw [paddleStep_id_of_not_cond _ _ hpc]
      exact hWu

/-! ### Claim C8 -/

/-- Claim C8: from any reachable state (any sequence of public operations
starting at construction), the ball's direction is exactly unit length; and
each direction mutation (a wall bounce, a reset) applied to such a state
again yields a unit direction. -/
theorem direction_always_unit (st : GameState) (h : Reachable st) :
    st.ball_dir_x ^ 2 + st.ball_dir_y ^ 2 = 1 ∧
    (∀ c : Bool, (reset c st).ball_dir_x ^ 2 + (reset c st).ball_dir_y ^ 2 = 1) ∧
    (wallStep st).2.ball_dir_x ^ 2 + (wallStep st).2.ball_dir_y ^ 2 = 1 := by
  have key : st.ball_dir_x ^ 2 + st.ball_dir_y ^ 2 = 1 ∧
      st.ball_pos_x = st.last_ball_pos_x ∧
      st.ball_pos_y = st.last_ball_pos_y := by
    induction h with
    | init d0 b => exact ⟨reset_dir_unit b _, rfl, rfl⟩
    | step b hst ih =>
        rename_i st'
        by_cases hact : st'.active0 = true ∧ st'.active1 = true
        · rw [spinOnce_active b st' hact.1 hact.2]
          refine ⟨tick_dir_unit b st' ih.1 ih.2.1, ?_, ?_⟩
          · rw [tick_eq]; rfl
          · rw [tick_eq]; rfl
        · rw [spinOnce_inactive b st' hact]
          exact ih
    | feedback p y ev hst ih =>
        rename_i st'
        obtain ⟨e1, e2, e3, e4, e5, e6⟩ := processPaddleFeedback_ball p y ev st'
        rw [e1, e2, e3, e4, e5, e6]
        exact ih
  exact ⟨key.1, fun c => reset_dir_unit c st, wallStep_unit st key.1⟩

/-- Witness for claim C8 at the initial state. -/
theorem direction_always_unit_witness :
    (initState 1 true).ball_dir_x ^ 2 + (initState 1 true).ball_dir_y ^ 2 = 1 :=
  (direction_always_unit (initState 1 true) (Reachable.init 1 true)).1

lemma wallStep_top_y (st : GameState)
    (hy : st.ball_pos_y = st.last_ball_pos_y)
    (hle : st.last_ball_pos_y ≤ FIELD_HEIGHT * 0.5)
    (htop : FIELD_HEIGHT * 0.5 < (advance st).ball_pos_y) :
    (wallStep (advance st)).2.ball_pos_y
      = 2 * (FIELD_HEIGHT * 0.5) - (advance st).ball_pos_y := by
  have hden : (advance st).ball_pos_y - (advance st).last_ball_pos_y
      = st.speed * st.ball_dir_y := by
    simp only [advance]; rw [hy]; ring
  have hlast : (advance st).last_ball_pos_y = st.last_ball_pos_y := rfl
  have hdy : 0 < st.speed * st.ball_dir_y := by
    rw [← hden, hlast]; linarith
  have hc : (advance st).ball_pos_y
      - ((advance st).ball_pos_y - FIELD_HEIGHT * 0.5) /
          ((advance st).ball_pos_y - (advance st).last_ball_pos_y)
        * (st.speed * st.ball_dir_y) = FIELD_HEIGHT * 0.5 := by
    rw [hden, div_mul_cancel₀ _ hdy.ne']
    ring
  rw [wallStep_some (reflect_high htop)]
  dsimp only
  simp only [show (advance st).speed = st.speed from rfl,
    show (advance st).ball_dir_y = st.ball_dir_y from rfl]
  linear_combination 2 * hc

lemma wallStep_bot_y (st : GameState)
    (hy : st.ball_pos_y = st.last_ball_pos_y)
    (hge : -(FIELD_HEIGHT * 0.5) ≤ st.last_ball_pos_y)
    (hbot : (advance st).ball_pos_y < -(FIELD_HEIGHT * 0.5)) :
    (wallStep (advance st)).2.ball_pos_y
      = -(2 * (FIELD_HEIGHT * 0.5)) - (advance st).ball_pos_y := by
  have hh := half_height
  have hden : (advance st).ball_pos_y - (advance st).last_ball_pos_y
      = st.speed * st.ball_dir_y := by
    simp only [advance]; rw [hy]; ring
  have hlast : (advance st).last_ball_pos_y = st.last_ball_pos_y := rfl
  have hdy : st.speed * st.ball_dir_y < 0 := by
    rw [← hden, hlast]; linarith
  have h1 : (advance st).ball_pos_y ≤ FIELD_HEIGHT * 0.5 := by linarith
  have h2 : FIELD_HEIGHT * 0.5 < -(advance st).ball_pos_y := by linarith
  have hden' : (advance st).last_ball_pos_y - (advance st).ball_pos_y
      = -(st.speed * st.ball_dir_y) := by rw [← hden]; ring
  have hc : (advance st).ball_pos_y
      - (-(advance st).ball_pos_y - FIELD_HEIGHT * 0.5) /
          ((advance st).last_ball_pos_y - (advance st).ball_pos_y)
        * (st.speed * st.ball_dir_y) = -(FIELD_HEIGHT * 0.5) := by
    rw [hden', div_neg, neg_mul, div_mul_cancel₀ _ hdy.ne]
    ring
  rw [wallStep_some (reflect_low h1 h2)]
  dsimp only
  simp only [show (advance st).speed = st.speed from rfl,
    show (advance st).ball_dir_y = st.ball_dir_y from rfl]
  linear_combination 2 * hc

lemma wallT_nonneg (st : GameState)
    (hb : |st.last_ball_pos_y| ≤ FIELD_HEIGHT * 0.5) :
    0 ≤ (wallStep (advance st)).1 := by
  have habs := abs_le.mp hb
  have hlast : (advance st).last_ball_pos_y = st.last_ball_pos_y := rfl
  by_cases htop : FIELD_HEIGHT * 0.5 < (advance st).ball_pos_y
  · rw [wallStep_some (reflect_high htop)]
    dsimp only
    apply div_nonneg
    · linarith
    · rw [hlast]; linarith
  · by_cases hbot : FIELD_HEIGHT * 0.5 < -(advance st).ball_pos_y
    · rw [wallStep_some (reflect_low (not_lt.mp htop) hbot)]
      dsimp only
      apply div_nonneg
      · linarith
      · rw [hlast]; linarith
    · rw [wallStep_none (not_lt.mp htop) (not_lt.mp hbot)]

lemma paddleStep_fired_xy (player : ℕ) (t0 : ℝ) (st : GameState)
    (h1 : |st.last_ball_pos_x| < FIELD_WIDTH * 0.5 ∧
          FIELD_WIDTH * 0.5 ≤ |st.ball_pos_x|)
    (h2 : paddlePos st player - PADDLE_SIZE * 0.5 - 0.5 * BORDER_SIZE < st.ball_pos_y ∧
          st.ball_pos_y < paddlePos st player + PADDLE_SIZE * 0.5 + 0.5 * BORDER_SIZE) :
    ∃ tu w : ℝ,
      tu = (reflect st.ball_pos_x st.last_ball_pos_x (FIELD_WIDTH * 0.5)).getD t0 ∧
      w = st.ball_dir_y
          + (st.ball_pos_y - tu * (st.speed * st.ball_dir_y) - paddlePos st player)
            / PADDLE_SIZE * 2 ∧
      (paddleStep player t0 st).2.ball_pos_x
        = (st.ball_pos_x - tu * (st.speed * st.ball_dir_x))
          + tu * (st.speed * (clampDir (normalizeVel (-st.ball_dir_x) w)).1) ∧
      (paddleStep player t0 st).2.ball_pos_y
        = (st.ball_pos_y - tu * (st.speed * st.ball_dir_y))
          + tu * (st.speed * (clampDir (normalizeVel (-st.ball_dir_x) w)).2) ∧
      (paddleStep player t0 st).2.ball_dir_x
        = (clampDir (normalizeVel (-st.ball_dir_x) w)).1 ∧
      (paddleStep player t0 st).2.ball_dir_y
        = (clampDir (normalizeVel (-st.ball_dir_x) w)).2 := by
  rw [paddleStep_fired h1 h2]
  exact ⟨_, _, rfl, rfl, rfl, rfl, rfl, rfl⟩

/-! ### Claim C5 -/

/-- Claim C5 (amended): within one tick, a reflection keeps the reported
post-step position on the playing-field side of the reflected boundary as
long as that boundary is the only one interacting badly: if a wall is
crossed and no paddle reflection fires, the post-step y stays on the field
side of that wall; if a paddle reflection fires, the post-step x stays on
the field side of that goal line.  (When a wall bounce and a paddle bounce
happen in the same tick, the paddle's re-applied displacement can carry the
ball back through the wall — see the counterexample.) -/
theorem single_boundary_no_tunnel (b : Bool) (st : GameState)
    (h0 : st.active0 = true) (h1 : st.active1 = true)
    (hlx : st.ball_pos_x = st.last_ball_pos_x)
    (hly : st.ball_pos_y = st.last_ball_pos_y)
    (hb : |st.last_ball_pos_y| ≤ FIELD_HEIGHT * 0.5)
    (hs : 0 < st.speed) :
    ((FIELD_HEIGHT * 0.5 < (advance st).ball_pos_y ∧
        ¬ paddleCond (wallStep (advance st)).2) →
      (spinOnce b st).ball_pos_y ≤ FIELD_HEIGHT * 0.5) ∧
    (((advance st).ball_pos_y < -(FIELD_HEIGHT * 0.5) ∧
        ¬ paddleCond (wallStep (advance st)).2) →
      -(FIELD_HEIGHT * 0.5) ≤ (spinOnce b st).ball_pos_y) ∧
    ((paddleCond (wallStep (advance st)).2 ∧
        FIELD_WIDTH * 0.5 ≤ (wallStep (advance st)).2.ball_pos_x) →
      (spinOnce b st).ball_pos_x ≤ FIELD_WIDTH * 0.5) ∧
    ((paddleCond (wallStep (advance st)).2 ∧
        (wallStep (advance st)).2.ball_pos_x ≤ -(FIELD_WIDTH * 0.5)) →
      -(FIELD_WIDTH * 0.5) ≤ (spinOnce b st).ball_pos_x) := by
  have hh := half_height
  have habs := abs_le.mp hb
  refine ⟨?_, ?_, ?_, ?_⟩
  · rintro ⟨htop, hnp⟩
    rw [spinOnce_active b st h0 h1, tick_eq, (finalize_fields _).2.1,
        paddleStep_id_of_not_cond _ _ hnp]
    dsimp only
    have hwy := wallStep_top_y st hly habs.2 htop
    by_cases hsc : FIELD_WIDTH * 0.5 + 1.5 * BORDER_SIZE
        ≤ |(wallStep (advance st)).2.ball_pos_x|
    · rw [scoreStep_fired hsc]
      dsimp only
      rw [(reset_ball_pos b _).2, hh]
      norm_num
    · rw [scoreStep_none (not_le.mp hsc), hwy]
      linarith
  · rintro ⟨hbot, hnp⟩
    rw [spinOnce_active b st h0 h1, tick_eq, (finalize_fields _).2.1,
        paddleStep_id_of_not_cond _ _ hnp]
    dsimp only
    have hwy := wallStep_bot_y st hly habs.1 hbot
    by_cases hsc : FIELD_WIDTH * 0.5 + 1.5 * BORDER_SIZE
        ≤ |(wallStep (advance st)).2.ball_pos_x|
    · rw [scoreStep_fired hsc]
      dsimp only
      rw [(reset_ball_pos b _).2, hh]
      norm_num
    · rw [scoreStep_none (not_le.mp hsc), hwy]
      linarith
  · rintro ⟨hpc, hxr⟩
    rw [spinOnce_active b st h0 h1, tick_eq, (finalize_fields _).1]
    obtain ⟨tu, w, htu, -, hPx, -, -, -⟩ := paddleStep_fired_xy
        (playerOf (wallStep (advance st)).2) (wallStep (advance st)).1
        (wallStep (advance st)).2 hpc.1 hpc.2
    have hWlx : (wallStep (advance st)).2.last_ball_pos_x = st.last_ball_pos_x := by
      rw [wallStep_last_x]; rfl
    have hWx : (wallStep (advance st)).2.ball_pos_x
        = st.last_ball_pos_x + st.speed * st.ball_dir_x := by
      rw [wallStep_ball_pos_x]
      show st.ball_pos_x + st.speed * st.ball_dir_x = _
      rw [hlx]
    have hWdx : (wallStep (advance st)).2.ball_dir_x = st.ball_dir_x := by
      rw [wallStep_ball_dir_x]; rfl
    have hWs : (wallStep (advance st)).2.speed = st.speed := by
      rw [wallStep_speed]; rfl
    have hlast6 := hpc.1.1
    rw [hWlx] at hlast6
    have hlx6 := abs_lt.mp hlast6
    have hsx : 0 < st.speed * st.ball_dir_x := by
      rw [hWx] at hxr
      linarith [hlx6.2]
    have hdP : (clampDir (normalizeVel (-(wallStep (advance st)).2.ball_dir_x) w)).1
        < 0 := by
      apply clampDir_fst_neg
      apply normalizeVel_fst_neg
      rw [hWdx]
      rcases mul_pos_iff.mp hsx with ⟨-, hx⟩ | ⟨hs', -⟩
      · linarith
      · linarith
    have htu0 : 0 ≤ tu ∧ (wallStep (advance st)).2.ball_pos_x
        - tu * ((wallStep (advance st)).2.speed * (wallStep (advance st)).2.ball_dir_x)
        ≤ FIELD_WIDTH * 0.5 := by
      rcases eq_or_lt_of_le hxr with heq | hlt
      · have hrn : reflect (wallStep (advance st)).2.ball_pos_x
            (wallStep (advance st)).2.last_ball_pos_x (FIELD_WIDTH * 0.5) = none := by
          apply reflect_none (le_of_eq heq.symm)
          rw [← heq, half_width]
          norm_num
        rw [hrn, Option.getD_none] at htu
        have ht0 : 0 ≤ tu := by rw [htu]; exact wallT_nonneg st hb
        refine ⟨ht0, ?_⟩
        rw [← heq, hWs, hWdx]
        have hmn : 0 ≤ tu * (st.speed * st.ball_dir_x) := mul_nonneg ht0 hsx.le
        linarith
      · rw [reflect_high hlt, Option.getD_some] at htu
        have hden : (wallStep (advance st)).2.ball_pos_x
            - (wallStep (advance st)).2.last_ball_pos_x
            = st.speed * st.ball_dir_x := by
          rw [hWx, hWlx]; ring
        have ht0 : 0 ≤ tu := by
          rw [htu, hden]
          exact div_nonneg (by linarith) hsx.le
        refine ⟨ht0, ?_⟩
        rw [hWs, hWdx, htu, hden, div_mul_cancel₀ _ hsx.ne']
        linarith
    by_cases hsc : FIELD_WIDTH * 0.5 + 1.5 * BORDER_SIZE
        ≤ |(paddleStep (playerOf (wallStep (advance st)).2) (wallStep (advance st)).1
            (wallStep (advance st)).2).2.ball_pos_x|
    · rw [scoreStep_fired hsc]
      dsimp only
      rw [(reset_ball_pos b _).1, half_width]
      norm_num
    · rw [scoreStep_none (not_le.mp hsc), hPx]
      have h1t : (wallStep (advance st)).2.speed *
          (clampDir (normalizeVel (-(wallStep (advance st)).2.ball_dir_x) w)).1
          ≤ 0 := by
        rw [hWs]
        exact (mul_neg_of_pos_of_neg hs hdP).le
      have hterm : tu * ((wallStep (advance st)).2.speed *
          (clampDir (normalizeVel (-(wallStep (advance st)).2.ball_dir_x) w)).1)
          ≤ 0 := by
        nlinarith [mul_nonneg htu0.1 (neg_nonneg.mpr h1t)]
      linarith [htu0.2]
  · rintro ⟨hpc, hxl⟩
    rw [spinOnce_active b st h0 h1, tick_eq, (finalize_fields _).1]
    obtain ⟨tu, w, htu, -, hPx, -, -, -⟩ := paddleStep_fired_xy
        (playerOf (wallStep (advance st)).2) (wallStep (advance st)).1
        (wallStep (advance st)).2 hpc.1 hpc.2
    have hWlx : (wallStep (advance st)).2.last_ball_pos_x = st.last_ball_pos_x := by
      rw [wallStep_last_x]; rfl
    have hWx : (wallStep (advance st)).2.ball_pos_x
        = st.last_ball_pos_x + st.speed * st.ball_dir_x := by
      rw [wallStep_ball_pos_x]
      show st.ball_pos_x + st.speed * st.ball_dir_x = _
      rw [hlx]
    have hWdx : (wallStep (advance st)).2.ball_dir_x = st.ball_dir_x := by
      rw [wallStep_ball_dir_x]; rfl
    have hWs : (wallStep (advance st)).2.speed = st.speed := by
      rw [wallStep_speed]; rfl
    have hlast6 := hpc.1.1
    rw [hWlx] at hlast6
    have hlx6 := abs_lt.mp hlast6
    have hsx : st.speed * st.ball_dir_x < 0 := by
      rw [hWx] at hxl
      linarith [hlx6.1]
    have hdP : 0 < (clampDir (normalizeVel (-(wallStep (advance st)).2.ball_dir_x) w)).1 := by
      apply clampDir_fst_pos
      apply normalizeVel_fst_pos
      rw [hWdx]
      rcases mul_neg_iff.mp hsx with ⟨-, hx⟩ | ⟨hs', -⟩
      · linarith
      · linarith
    have hw6 : (0:ℝ) ≤ FIELD_WIDTH * 0.5 := by rw [half_width]; norm_num
    have htu0 : 0 ≤ tu ∧ -(FIELD_WIDTH * 0.5) ≤ (wallStep (advance st)).2.ball_pos_x
        - tu * ((wallStep (advance st)).2.speed * (wallStep (advance st)).2.ball_dir_x) := by
      rcases eq_or_lt_of_le hxl with heq | hlt
      · have hrn : reflect (wallStep (advance st)).2.ball_pos_x
            (wallStep (advance st)).2.last_ball_pos_x (FIELD_WIDTH * 0.5) = none := by
          apply reflect_none
          · rw [heq]; linarith
          · rw [heq]; linarith
        rw [hrn, Option.getD_none] at htu
        have ht0 : 0 ≤ tu := by rw [htu]; exact wallT_nonneg st hb
        refine ⟨ht0, ?_⟩
        rw [heq, hWs, hWdx]
        have hmn : tu * (st.speed * st.ball_dir_x) ≤ 0 := by
          nlinarith [mul_nonneg ht0 (neg_nonneg.mpr hsx.le)]
        linarith
      · have hl1 : (wallStep (advance st)).2.ball_pos_x ≤ FIELD_WIDTH * 0.5 := by
          linarith
        have hl2 : FIELD_WIDTH * 0.5 < -(wallStep (advance st)).2.ball_pos_x := by
          linarith
        rw [reflect_low hl1 hl2, Option.getD_some] at htu
        have hden : (wallStep (advance st)).2.last_ball_pos_x
            - (wallStep (advance st)).2.ball_pos_x
            = -(st.speed * st.ball_dir_x) := by
          rw [hWx, hWlx]; ring
        have ht0 : 0 ≤ tu := by
          rw [htu, hden]
          apply div_nonneg (by linarith)
          linarith
        refine ⟨ht0, ?_⟩
        rw [hWs, hWdx, htu, hden, div_neg, neg_mul, div_mul_cancel₀ _ hsx.ne]
        linarith
    by_cases hsc : FIELD_WIDTH * 0.5 + 1.5 * BORDER_SIZE
        ≤ |(paddleStep (playerOf (wallStep (advance st)).2) (wallStep (advance st)).1
            (wallStep (advance st)).2).2.ball_pos_x|
    · rw [scoreStep_fired hsc]
      dsimp only
      rw [(reset_ball_pos b _).1]
      linarith
    · rw [scoreStep_none (not_le.mp hsc), hPx]
      have h1t : 0 ≤ (wallStep (advance st)).2.speed *
          (clampDir (normalizeVel (-(wallStep (advance st)).2.ball_dir_x) w)).1 := by
        rw [hWs]
        exact (mul_pos hs hdP).le
      have hterm : 0 ≤ tu * ((wallStep (advance st)).2.speed *
          (clampDir (normalizeVel (-(wallStep (advance st)).2.ball_dir_x) w)).1) :=
        mul_nonneg htu0.1 h1t
      linarith [htu0.2]

lemma wallStep_paddle1 (st : GameState) : (wallStep st).2.paddle1 = st.paddle1 := by
  unfold wallStep
  cases reflect st.ball_pos_y st.last_ball_pos_y (FIELD_HEIGHT * 0.5) <;> rfl

lemma lt_abs_div_sqrt_of {y S c u : ℝ} (hc : 0 ≤ c) (hu : 0 ≤ u)
    (hS0 : 0 < S) (hS : S ≤ u ^ 2) (hy : c * u < |y|) :
    c < |y / Real.sqrt S| := by
  have hsu : Real.sqrt S ≤ u := by
    rw [show u = Real.sqrt (u ^ 2) from (Real.sqrt_sq hu).symm]
    exact Real.sqrt_le_sqrt hS
  have hsp : 0 < Real.sqrt S := Real.sqrt_pos.mpr hS0
  rw [abs_div, abs_of_pos hsp, lt_div_iff₀ hsp]
  calc c * Real.sqrt S ≤ c * u := mul_le_mul_of_nonneg_left hsu hc
    _ < |y| := hy

/-- A concrete pre-tick state at high rally speed: ball at `(-1, 1/2)` with
unit direction `(99/101, 20/101)` and speed `101/5`, paddle 1 at `y = 3`.
The tick's displacement is `(99/5, 4)`: the ball bounces off the top wall
(down to `y = 7/2`), then crosses the right goal line inside the paddle
window; the spin adjustment triggers the 45° clamp and the re-applied
displacement fraction carries the ball back up beyond the top wall. -/
def stC5 : GameState :=
  { paddle0 := 0, paddle1 := 3, active0 := true, active1 := true
    score0 := 0, score1 := 0
    last_ball_pos_x := -1, last_ball_pos_y := 1/2
    ball_pos_x := -1, ball_pos_y := 1/2
    ball_dir_x := 99/101, ball_dir_y := 20/101, speed := 101/5 }

/-- Claim C5 counterexample: the tick from `stC5` starts inside the field,
is reflected off the top wall (`y` crosses `+FIELD_HEIGHT/2` during the
tick), and yet the reported post-step position lies beyond the top wall:
the ball tunnels when a wall bounce and a paddle bounce happen in the same
tick. -/
theorem high_speed_tunnel_cex :
    stC5.ball_pos_y = stC5.last_ball_pos_y ∧
    |stC5.last_ball_pos_y| ≤ FIELD_HEIGHT * 0.5 ∧
    FIELD_HEIGHT * 0.5 < (advance stC5).ball_pos_y ∧
    FIELD_HEIGHT * 0.5 < (spinOnce true stC5).ball_pos_y := by
  have hay : (advance stC5).ball_pos_y = 9/2 := by norm_num [advance, stC5]
  have haly : (advance stC5).last_ball_pos_y = 1/2 := by norm_num [advance, stC5]
  have hax : (advance stC5).ball_pos_x = 94/5 := by norm_num [advance, stC5]
  have hr5 : reflect (advance stC5).ball_pos_y (advance stC5).last_ball_pos_y
      (FIELD_HEIGHT * 0.5) = some (1/8) := by
    rw [reflect_high (show FIELD_HEIGHT * 0.5 < (advance stC5).ball_pos_y by
      rw [half_height, hay]; norm_num)]
    rw [hay, haly, half_height]
    norm_num
  have hWy : (wallStep (advance stC5)).2.ball_pos_y = 7/2 := by
    rw [wallStep_some hr5]; dsimp only; norm_num [advance, stC5]
  have hWx : (wallStep (advance stC5)).2.ball_pos_x = 94/5 := by
    rw [wallStep_ball_pos_x]; exact hax
  have hWlx : (wallStep (advance stC5)).2.last_ball_pos_x = -1 := by
    rw [wallStep_last_x, advance_last_x]; norm_num [stC5]
  have hWdx : (wallStep (advance stC5)).2.ball_dir_x = 99/101 := by
    rw [wallStep_ball_dir_x]; norm_num [advance, stC5]
  have hWdy : (wallStep (advance stC5)).2.ball_dir_y = -(20/101) := by
    rw [wallStep_some hr5]; dsimp only; norm_num [advance, stC5]
  have hWs : (wallStep (advance stC5)).2.speed = 101/5 := by
    rw [wallStep_speed]; norm_num [advance, stC5]
  have hWp : paddlePos (wallStep (advance stC5)).2 1 = 3 := by
    unfold paddlePos
    rw [if_pos rfl, wallStep_paddle1]
    norm_num [advance, stC5]
  have hply : playerOf (wallStep (advance stC5)).2 = 1 := by
    unfold playerOf
    rw [if_pos (show 0 < (wallStep (advance stC5)).2.ball_pos_x by
      rw [hWx]; norm_num)]
  have h1c : |(wallStep (advance stC5)).2.last_ball_pos_x| < FIELD_WIDTH * 0.5 ∧
      FIELD_WIDTH * 0.5 ≤ |(wallStep (advance stC5)).2.ball_pos_x| := by
    rw [hWlx, hWx, half_width]
    constructor
    · rw [abs_of_neg (show (-1:ℝ) < 0 by norm_num)]; norm_num
    · rw [abs_of_pos (show (0:ℝ) < 94/5 by norm_num)]; norm_num
  have h2c : paddlePos (wallStep (advance stC5)).2 1 - PADDLE_SIZE * 0.5
        - 0.5 * BORDER_SIZE < (wallStep (advance stC5)).2.ball_pos_y ∧
      (wallStep (advance stC5)).2.ball_pos_y
        < paddlePos (wallStep (advance stC5)).2 1 + PADDLE_SIZE * 0.5
          + 0.5 * BORDER_SIZE := by
    rw [hWp, hWy]
    norm_num [PADDLE_SIZE, BORDER_SIZE]
  obtain ⟨tu, w, htu, hwEq, hPx, hPy, -, -⟩ := paddleStep_fired_xy 1
      (wallStep (advance stC5)).1 (wallStep (advance stC5)).2 h1c h2c
  have hrx : reflect (wallStep (advance stC5)).2.ball_pos_x
      (wallStep (advance stC5)).2.last_ball_pos_x (FIELD_WIDTH * 0.5)
      = some (64/99) := by
    rw [reflect_high (show FIELD_WIDTH * 0.5 < (wallStep (advance stC5)).2.ball_pos_x
      by rw [half_width, hWx]; norm_num)]
    rw [hWx, hWlx, half_width]
    norm_num
  rw [hrx, Option.getD_some] at htu
  rw [htu, hWy, hWdy, hWs, hWp,
      show (PADDLE_SIZE:ℝ) = 2 from by norm_num [PADDLE_SIZE]] at hwEq
  norm_num at hwEq
  have hSpos : (0:ℝ) < -(99/101) * -(99/101) + 57751/19998 * (57751/19998) := by
    norm_num
  have hclamp : (0.707106781:ℝ)
      < |(normalizeVel (-(99/101):ℝ) (57751/19998)).2| := by
    simp only [normalizeVel]
    apply lt_abs_div_sqrt_of (by norm_num) (show (0:ℝ) ≤ 61/20 by norm_num) hSpos
    · norm_num
    · rw [abs_of_pos (show (0:ℝ) < 57751/19998 by norm_num)]
      norm_num
  have hx2 : (normalizeVel (-(99/101):ℝ) (57751/19998)).1 < 0 := by
    simp only [normalizeVel]
    exact div_neg_of_neg_of_pos (by norm_num) (Real.sqrt_pos.mpr hSpos)
  have hy2 : 0 < (normalizeVel (-(99/101):ℝ) (57751/19998)).2 := by
    simp only [normalizeVel]
    exact div_pos (by norm_num) (Real.sqrt_pos.mpr hSpos)
  have hcd : clampDir (normalizeVel (-(99/101):ℝ) (57751/19998))
      = normalizeVel (-1) 1 := by
    unfold clampDir
    rw [if_pos hclamp, if_neg (not_lt.mpr hx2.le), if_pos hy2]
  have hn2 : (normalizeVel (-1:ℝ) 1).2 = 1 / Real.sqrt 2 := by
    simp only [normalizeVel]
    norm_num
  have hn1 : (normalizeVel (-1:ℝ) 1).1 = -(1 / Real.sqrt 2) := by
    simp only [normalizeVel]
    rw [show ((-1:ℝ) * -1 + 1 * 1) = 2 by norm_num]
    ring
  have hinv_pos : (0:ℝ) < 1 / Real.sqrt 2 := by positivity
  have hinv_le : (1:ℝ) / Real.sqrt 2 ≤ 5/7 := by
    have h75 : (7:ℝ)/5 ≤ Real.sqrt 2 :=
      (Real.le_sqrt (by norm_num) (by norm_num)).mpr (by norm_num)
    calc (1:ℝ)/Real.sqrt 2 ≤ 1/((7:ℝ)/5) :=
          one_div_le_one_div_of_le (by norm_num) h75
      _ = 5/7 := by norm_num
  rw [htu, hWx, hWdx, hWs, hwEq, hcd, hn1] at hPx
  rw [htu, hWy, hWdy, hWdx, hWs, hwEq, hcd, hn2] at hPy
  have hPxlb : -(27/4:ℝ) < (paddleStep 1 (wallStep (advance stC5)).1
      (wallStep (advance stC5)).2).2.ball_pos_x := by
    rw [hPx]; linarith
  have hPxub : (paddleStep 1 (wallStep (advance stC5)).1
      (wallStep (advance stC5)).2).2.ball_pos_x < 27/4 := by
    rw [hPx]; linarith
  have hscne : ¬(FIELD_WIDTH * 0.5 + 1.5 * BORDER_SIZE
      ≤ |(paddleStep 1 (wallStep (advance stC5)).1
          (wallStep (advance stC5)).2).2.ball_pos_x|) := by
    apply not_le.mpr
    rw [outer_limit, abs_lt]
    exact ⟨hPxlb, hPxub⟩
  have hPylb : FIELD_HEIGHT * 0.5 < (paddleStep 1 (wallStep (advance stC5)).1
      (wallStep (advance stC5)).2).2.ball_pos_y := by
    rw [hPy, half_height]; linarith
  refine ⟨rfl, by norm_num [stC5, FIELD_HEIGHT, abs_le],
    by rw [half_height, hay]; norm_num, ?_⟩
  rw [spinOnce_active true stC5 rfl rfl, tick_eq, (finalize_fields _).2.1, hply,
      scoreStep_none (not_le.mp hscne)]
  exact hPylb

lemma not_paddleCond_stC1 : ¬ paddleCond (wallStep (advance stC1)).2 := by
  rintro ⟨⟨-, h6⟩, -⟩
  rw [wallStep_ball_pos_x,
      show (advance stC1).ball_pos_x = 3/2 from by norm_num [advance, stC1],
      half_width, abs_of_pos (show (0:ℝ) < 3/2 by norm_num)] at h6
  norm_num at h6

/-- Witness for the amended claim C5: the wall-only bounce from `stC1` ends
on the field side of the top wall. -/
theorem single_boundary_no_tunnel_witness :
    (spinOnce true stC1).ball_pos_y ≤ FIELD_HEIGHT * 0.5 :=
  (single_boundary_no_tunnel true stC1 rfl rfl rfl rfl
      (by norm_num [stC1, FIELD_HEIGHT, abs_le]) (by norm_num [stC1])).1
    ⟨by norm_num [advance, stC1, FIELD_HEIGHT], not_paddleCond_stC1⟩

end

end Pong
